import Mathlib

/-!
Shallow embedding of flopy/utils/zonbud.py (ZoneBudget and Budget classes).

Modeling conventions:
* numpy float64 values are modeled as rationals (the operations used by the
  code are additions, negations, absolute values and sign comparisons, which
  are exact in float64-free rational arithmetic for the properties checked).
* The numpy record array self.zonbudrecords is modeled as a Ledger: a list of
  rows, each carrying a flow-direction field, a record-name field and a total
  map from zone-column ids to rational values, together with the list of zone
  columns present in the dtype.
* The string labels of the record field (CONSTANT HEAD, FROM ZONE z, TO ZONE z
  and the source or sink term names) are modeled by the tagged type RecName;
  the corresponding strings are pairwise distinct in the source, which the
  tagged representation captures.
* np.where index triples are enumerated in C order (layer, then row, then
  column), matching numpy; list filters preserve that order.
-/

namespace ZonBud

/-- Flow direction field of a budget record row (the string field flow_dir of
the record array: the values written by the code are in and out). -/
inductive FlowDir
  | inflow
  | outflow
deriving DecidableEq

/-- Record-name field of a budget record row. -/
inductive RecName
  | constantHead
  | fromZone (z : Int)
  | toZone (z : Int)
  | term (s : String)
deriving DecidableEq

/-- One row of the zonbudrecords record array. -/
structure LRow where
  dir : FlowDir
  rname : RecName
  vals : Int → ℚ

/-- The zonbudrecords record array: the zone columns of the dtype together
with the rows. -/
structure Ledger where
  cols : List Int
  rows : List LRow

/-- Key match of a row against a flow direction and record name, mirroring
the boolean index (flow_dir == fd) and (record == recname). -/
def matchKey (d : FlowDir) (r : RecName) (row : LRow) : Bool :=
  decide (row.dir = d) && decide (row.rname = r)

/-- ZoneBudget._update_record: if the column is not ZONE 0, add the flux to
the given column of every row whose key matches. -/
def updateRecord (L : Ledger) (d : FlowDir) (r : RecName) (z : Int) (flux : ℚ) :
    Ledger :=
  if z = 0 then L
  else
    { L with
      rows := L.rows.map fun row =>
        if matchKey d r row then
          { row with vals := fun w => if w = z then row.vals w + flux else row.vals w }
        else row }

/-- Sum of the values in a given column over the rows matching a key. With
unique keys (the case in every run of the code) this is the value stored in
the single matching row. -/
def rowsValue : List LRow → FlowDir → RecName → Int → ℚ
  | [], _, _, _ => 0
  | row :: rest, d, r, z =>
      (if matchKey d r row then row.vals z else 0) + rowsValue rest d r z

/-- Ledger cell read: value of column z in the row keyed (d, r). -/
def value (L : Ledger) (d : FlowDir) (r : RecName) (z : Int) : ℚ :=
  rowsValue L.rows d r z

/-- Number of rows matching a key. -/
def rowsCount : List LRow → FlowDir → RecName → Nat
  | [], _, _ => 0
  | row :: rest, d, r =>
      (if matchKey d r row then 1 else 0) + rowsCount rest d r

/-- Number of Ledger rows matching a key. -/
def countRows (L : Ledger) (d : FlowDir) (r : RecName) : Nat :=
  rowsCount L.rows d r

/-- A fresh all-zero row, as appended by ZoneBudget._build_empty_record. -/
def emptyRow (d : FlowDir) (r : RecName) : LRow :=
  ⟨d, r, fun _ => 0⟩

/-- ZoneBudget._initialize_records: the dtype has one ZONE z column per
nonzero z of lstzon; rows are built in source order: the in CONSTANT HEAD row
when CONSTANT HEAD is among the record names, one in row per source or sink
term name, one FROM ZONE z row per z of lstzon (zero included), then the same
three groups with direction out and TO ZONE labels. -/
def initializeRecords (hasCH : Bool) (ssstNames : List String)
    (lstzon : List Int) : Ledger :=
  { cols := lstzon.filter fun z => decide (z ≠ 0)
  , rows :=
      (if hasCH then [emptyRow .inflow .constantHead] else [])
        ++ ssstNames.map (fun n => emptyRow .inflow (.term n))
        ++ lstzon.map (fun z => emptyRow .inflow (.fromZone z))
        ++ (if hasCH then [emptyRow .outflow .constantHead] else [])
        ++ ssstNames.map (fun n => emptyRow .outflow (.term n))
        ++ lstzon.map (fun z => emptyRow .outflow (.toZone z)) }

/-! ### Basic ledger lemmas -/

theorem updateRecord_zero (L : Ledger) (d : FlowDir) (r : RecName) (f : ℚ) :
    updateRecord L d r 0 f = L := by
  simp [updateRecord]

theorem updateRecord_cols (L : Ledger) (d : FlowDir) (r : RecName) (z : Int)
    (f : ℚ) : (updateRecord L d r z f).cols = L.cols := by
  unfold updateRecord
  split <;> rfl

theorem matchKey_iff (d : FlowDir) (r : RecName) (row : LRow) :
    matchKey d r row = true ↔ row.dir = d ∧ row.rname = r := by
  simp [matchKey]

/-- The per-row transformer applied by updateRecord. -/
def bumpRow (d : FlowDir) (r : RecName) (z : Int) (f : ℚ) (row : LRow) : LRow :=
  if matchKey d r row then
    { row with vals := fun w => if w = z then row.vals w + f else row.vals w }
  else row

theorem updateRecord_eq (L : Ledger) (d : FlowDir) (r : RecName) (z : Int)
    (f : ℚ) : updateRecord L d r z f =
      if z = 0 then L else { L with rows := L.rows.map (bumpRow d r z f) } := rfl

theorem matchKey_bumpRow (d : FlowDir) (r : RecName) (z : Int) (f : ℚ)
    (d1 : FlowDir) (r1 : RecName) (row : LRow) :
    matchKey d1 r1 (bumpRow d r z f row) = matchKey d1 r1 row := by
  unfold bumpRow
  by_cases h : matchKey d r row
  · rw [if_pos h]
    rfl
  · rw [if_neg h]

theorem matchKey_bumpRow_true (d : FlowDir) (r : RecName) (z : Int) (f : ℚ)
    (row : LRow) (h : matchKey d r row = true) :
    matchKey d r (bumpRow d r z f row) = true := by
  rw [matchKey_bumpRow]; exact h

theorem rowsCount_map_update (rows : List LRow) (d : FlowDir) (r : RecName)
    (z : Int) (f : ℚ) (d1 : FlowDir) (r1 : RecName) :
    rowsCount (rows.map (bumpRow d r z f)) d1 r1 = rowsCount rows d1 r1 := by
  induction rows with
  | nil => rfl
  | cons row rest ih =>
      simp only [List.map_cons, rowsCount]
      rw [ih, matchKey_bumpRow]

theorem countRows_update (L : Ledger) (d : FlowDir) (r : RecName) (z : Int)
    (f : ℚ) (d1 : FlowDir) (r1 : RecName) :
    countRows (updateRecord L d r z f) d1 r1 = countRows L d1 r1 := by
  rw [updateRecord_eq]
  split
  · rfl
  · exact rowsCount_map_update L.rows d r z f d1 r1

theorem bumpRow_vals (d : FlowDir) (r : RecName) (z : Int) (f : ℚ)
    (row : LRow) (z1 : Int) :
    (bumpRow d r z f row).vals z1 =
      row.vals z1 + (if matchKey d r row ∧ z1 = z then f else 0) := by
  unfold bumpRow
  by_cases hk : matchKey d r row
  · by_cases hz : z1 = z <;> simp [hk, hz]
  · simp [hk]

theorem rowsValue_map_update (rows : List LRow) (d : FlowDir) (r : RecName)
    (z : Int) (f : ℚ) (d1 : FlowDir) (r1 : RecName) (z1 : Int) :
    rowsValue (rows.map (bumpRow d r z f)) d1 r1 z1 =
      rowsValue rows d1 r1 z1 +
        (if d1 = d ∧ r1 = r ∧ z1 = z then (rowsCount rows d r : ℚ) * f else 0) := by
  induction rows with
  | nil => simp [rowsValue, rowsCount]
  | cons row rest ih =>
      simp only [List.map_cons, rowsValue, rowsCount, ih, matchKey_bumpRow,
        bumpRow_vals]
      by_cases hc : d1 = d ∧ r1 = r ∧ z1 = z
      · obtain ⟨hcd, hcr, hcz⟩ := hc
        subst hcd; subst hcr; subst hcz
        by_cases hk1 : matchKey d1 r1 row = true
        · simp [hk1, Nat.cast_add]
          ring
        · simp [hk1]
      · by_cases hk1 : matchKey d1 r1 row = true
        · by_cases hkz : matchKey d r row = true ∧ z1 = z
          · -- the bumped cell is read: then all three key components agree,
            -- contradicting hc
            exfalso
            have h1 := (matchKey_iff d r row).1 hkz.1
            have h2 := (matchKey_iff d1 r1 row).1 hk1
            exact hc ⟨h2.1 ▸ h1.1 ▸ rfl, h2.2 ▸ h1.2 ▸ rfl, hkz.2⟩
          · simp [hk1, hkz, hc]
        · simp [hk1, hc]

theorem value_update (L : Ledger) (d : FlowDir) (r : RecName) (z : Int)
    (f : ℚ) (d1 : FlowDir) (r1 : RecName) (z1 : Int) :
    value (updateRecord L d r z f) d1 r1 z1 =
      value L d1 r1 z1 +
        (if z ≠ 0 ∧ d1 = d ∧ r1 = r ∧ z1 = z then (countRows L d r : ℚ) * f else 0) := by
  rw [updateRecord_eq]
  by_cases hz : z = 0
  · simp [hz]
  · simp only [hz, if_false, ne_eq, not_false_eq_true, true_and]
    exact rowsValue_map_update L.rows d r z f d1 r1 z1

/-! ### Grid model and the directional flux accumulators -/

/-- Shape of the cell-by-cell budget arrays: (nlay, nrow, ncol). -/
structure Dims where
  nlay : Nat
  nrow : Nat
  ncol : Nat
deriving DecidableEq

/-- A dense 3-D float array, as a total map on (layer, row, column). -/
abbrev Grid3 := Nat → Nat → Nat → ℚ

/-- The zone array izone. -/
abbrev Zone3 := Nat → Nat → Nat → Int

/-- A 0/1 constant-head indicator array (ich), with 1 modeled as true. -/
abbrev Mask3 := Nat → Nat → Nat → Bool

/-- All index triples of an array of the given shape in C order (layer
outermost, column innermost), the order in which np.where reports matches. -/
def idxList (nlay nrow ncol : Nat) : List (Nat × Nat × Nat) :=
  (List.range nlay).flatMap fun l =>
    (List.range nrow).flatMap fun r =>
      (List.range ncol).map fun c => (l, r, c)

/-- An atomic _update_record call. -/
structure Upd where
  dir : FlowDir
  rname : RecName
  zone : Int
  flux : ℚ

/-- Apply a sequence of _update_record calls in order. -/
def applyUpds (L : Ledger) (us : List Upd) : Ledger :=
  us.foldl (fun M u => updateRecord M u.dir u.rname u.zone u.flux) L

/-- The two _update_record calls done for one (from_zone, to_zone, flux)
tuple of nzgt: add the flux to row (in, FROM ZONE from) column to and to row
(out, TO ZONE to) column from. -/
def transferUpds (ts : List (Int × Int × ℚ)) : List Upd :=
  ts.flatMap fun t =>
    [⟨.inflow, .fromZone t.1, t.2.1, t.2.2⟩, ⟨.outflow, .toZone t.2.1, t.1, t.2.2⟩]

/-- The constant-head _update_record calls made from a list of raw
(from_zones value, to_zones value, face flow) triples: the code builds
chdneg = zip(to_zones, from_zones, |q|) over q < 0 and
chdpos = zip(from_zones, to_zones, |q|) over q >= 0, then unpacks each tuple
positionally as (from_zone, to_zone, flux) and writes
(in, CONSTANT HEAD, ZONE to_zone) for chdneg and
(out, CONSTANT HEAD, ZONE from_zone) for chdpos; in both cases the column
written is the from_zones slice value. -/
def chUpds (raw : List (Int × Int × ℚ)) : List Upd :=
  ((raw.filter fun t => decide (t.2.2 < 0)).map
      fun t => (⟨.inflow, .constantHead, t.1, |t.2.2|⟩ : Upd))
    ++ ((raw.filter fun t => decide (0 ≤ t.2.2)).map
      fun t => (⟨.outflow, .constantHead, t.1, |t.2.2|⟩ : Upd))

/-- Swizzle a list of raw (from_zones value, to_zones value, q) triples into
the nzgt tuple list: q < 0 gives zip(to_zones, from_zones, |q|), q >= 0
gives zip(from_zones, to_zones, |q|), negatives first. -/
def nzgtTuples (raw : List (Int × Int × ℚ)) : List (Int × Int × ℚ) :=
  ((raw.filter fun t => decide (t.2.2 < 0)).map fun t => (t.2.1, t.1, |t.2.2|))
    ++ ((raw.filter fun t => decide (0 ≤ t.2.2)).map fun t => (t.1, t.2.1, |t.2.2|))

/-- Raw triples of the first frf scan (flow between node J,I,K and J-1,I,K):
faces where the zone increases from column c to column c+1; from_zones is
the left cell, to_zones the right cell, q the FLOW RIGHT FACE value stored
at the left cell, zeroed when both cells are constant head. -/
def frfRawL2R (d : Dims) (izone : Zone3) (ich : Mask3) (bud : Grid3) :
    List (Int × Int × ℚ) :=
  ((idxList d.nlay d.nrow (d.ncol - 1)).filter fun p =>
      decide (izone p.1 p.2.1 p.2.2 < izone p.1 p.2.1 (p.2.2 + 1))).map
    fun p =>
      let l := p.1
      let r := p.2.1
      let c := p.2.2 + 1
      (izone l r (c - 1), izone l r c,
        if ich l r c && ich l r (c - 1) then 0 else bud l r (c - 1))

/-- Raw triples of the second frf scan (flow between node J,I,K and J+1,I,K):
faces where the zone decreases from column c to column c+1. -/
def frfRawR2L (d : Dims) (izone : Zone3) (ich : Mask3) (bud : Grid3) :
    List (Int × Int × ℚ) :=
  ((idxList d.nlay d.nrow (d.ncol - 1)).filter fun p =>
      decide (izone p.1 p.2.1 (p.2.2 + 1) < izone p.1 p.2.1 p.2.2)).map
    fun p =>
      let l := p.1
      let r := p.2.1
      let c := p.2.2
      (izone l r c, izone l r (c + 1),
        if ich l r c && ich l r (c + 1) then 0 else bud l r c)

/-- Raw triples of the first frf constant-head scan: constant-head cells not
on the left edge, paired with their left neighbor. -/
def frfRawCHL2R (d : Dims) (izone : Zone3) (ich : Mask3) (bud : Grid3) :
    List (Int × Int × ℚ) :=
  ((idxList d.nlay d.nrow d.ncol).filter fun p =>
      ich p.1 p.2.1 p.2.2 && decide (0 < p.2.2)).map
    fun p =>
      let l := p.1
      let r := p.2.1
      let c := p.2.2
      (izone l r (c - 1), izone l r c,
        if ich l r c && ich l r (c - 1) then 0 else bud l r (c - 1))

/-- Raw triples of the second frf constant-head scan: constant-head cells not
on the right edge, paired with their right neighbor. -/
def frfRawCHR2L (d : Dims) (izone : Zone3) (ich : Mask3) (bud : Grid3) :
    List (Int × Int × ℚ) :=
  ((idxList d.nlay d.nrow d.ncol).filter fun p =>
      ich p.1 p.2.1 p.2.2 && decide (p.2.2 < d.ncol - 1)).map
    fun p =>
      let l := p.1
      let r := p.2.1
      let c := p.2.2
      (izone l r c, izone l r (c + 1),
        if ich l r c && ich l r (c + 1) then 0 else bud l r c)

/-- ZoneBudget._accumulate_flow_frf: the two constant-head scans update the
CONSTANT HEAD rows in place (first scan, then second scan), and the combined
nzgt tuple list nzgt_l2r + nzgt_r2l is then written through the dual
FROM ZONE / TO ZONE updates. -/
def accumulateFlowFrf (d : Dims) (izone : Zone3) (ich : Mask3) (bud : Grid3)
    (L : Ledger) : Ledger :=
  let L1 := applyUpds L (chUpds (frfRawCHL2R d izone ich bud))
  let L2 := applyUpds L1 (chUpds (frfRawCHR2L d izone ich bud))
  applyUpds L2 (transferUpds
    (nzgtTuples (frfRawL2R d izone ich bud)
      ++ nzgtTuples (frfRawR2L d izone ich bud)))

/-- Raw triples of the first fff scan (flow between node J,I,K and J,I-1,K):
the source selects faces with np.where(nz less than nzu), that is where the
upper row cell has the greater zone; from_zones is the upper cell, to_zones
the lower cell, q the FLOW FRONT FACE value stored at the upper cell. -/
def fffRawU2D (d : Dims) (izone : Zone3) (ich : Mask3) (bud : Grid3) :
    List (Int × Int × ℚ) :=
  ((idxList d.nlay (d.nrow - 1) d.ncol).filter fun p =>
      decide (izone p.1 (p.2.1 + 1) p.2.2 < izone p.1 p.2.1 p.2.2)).map
    fun p =>
      let l := p.1
      let r := p.2.1 + 1
      let c := p.2.2
      (izone l (r - 1) c, izone l r c,
        if ich l r c && ich l (r - 1) c then 0 else bud l (r - 1) c)

/-- Raw triples of the second fff scan (flow between node J,I,K and J,I+1,K):
faces where the lower row cell has the greater zone; from_zones is the upper
cell, to_zones the lower cell, q stored at the upper cell. -/
def fffRawD2U (d : Dims) (izone : Zone3) (ich : Mask3) (bud : Grid3) :
    List (Int × Int × ℚ) :=
  ((idxList d.nlay (d.nrow - 1) d.ncol).filter fun p =>
      decide (izone p.1 p.2.1 p.2.2 < izone p.1 (p.2.1 + 1) p.2.2)).map
    fun p =>
      let l := p.1
      let r := p.2.1
      let c := p.2.2
      (izone l r c, izone l (r + 1) c,
        if ich l r c && ich l (r + 1) c then 0 else bud l r c)

/-- Raw triples of the first fff constant-head scan: constant-head cells not
on the top edge, paired with the neighbor in the previous row. -/
def fffRawCHU2D (d : Dims) (izone : Zone3) (ich : Mask3) (bud : Grid3) :
    List (Int × Int × ℚ) :=
  ((idxList d.nlay d.nrow d.ncol).filter fun p =>
      ich p.1 p.2.1 p.2.2 && decide (0 < p.2.1)).map
    fun p =>
      let l := p.1
      let r := p.2.1
      let c := p.2.2
      (izone l (r - 1) c, izone l r c,
        if ich l r c && ich l (r - 1) c then 0 else bud l (r - 1) c)

/-- Raw triples of the second fff constant-head scan: constant-head cells not
on the bottom edge, paired with the neighbor in the next row. -/
def fffRawCHD2U (d : Dims) (izone : Zone3) (ich : Mask3) (bud : Grid3) :
    List (Int × Int × ℚ) :=
  ((idxList d.nlay d.nrow d.ncol).filter fun p =>
      ich p.1 p.2.1 p.2.2 && decide (p.2.1 < d.nrow - 1)).map
    fun p =>
      let l := p.1
      let r := p.2.1
      let c := p.2.2
      (izone l r c, izone l (r + 1) c,
        if ich l r c && ich l (r + 1) c then 0 else bud l r c)

/-- ZoneBudget._accumulate_flow_fff, assembled like the frf variant. -/
def accumulateFlowFff (d : Dims) (izone : Zone3) (ich : Mask3) (bud : Grid3)
    (L : Ledger) : Ledger :=
  let L1 := applyUpds L (chUpds (fffRawCHU2D d izone ich bud))
  let L2 := applyUpds L1 (chUpds (fffRawCHD2U d izone ich bud))
  applyUpds L2 (transferUpds
    (nzgtTuples (fffRawU2D d izone ich bud)
      ++ nzgtTuples (fffRawD2U d izone ich bud)))

/-- Raw triples of the first flf scan (flow between node J,I,K and J,I,K-1):
faces where the deeper layer cell has the greater zone; from_zones is the
upper layer cell, to_zones the deeper cell, q stored at the upper cell. -/
def flfRawT2B (d : Dims) (izone : Zone3) (ich : Mask3) (bud : Grid3) :
    List (Int × Int × ℚ) :=
  ((idxList (d.nlay - 1) d.nrow d.ncol).filter fun p =>
      decide (izone p.1 p.2.1 p.2.2 < izone (p.1 + 1) p.2.1 p.2.2)).map
    fun p =>
      let l := p.1 + 1
      let r := p.2.1
      let c := p.2.2
      (izone (l - 1) r c, izone l r c,
        if ich l r c && ich (l - 1) r c then 0 else bud (l - 1) r c)

/-- Raw triples of the second flf scan (flow between node J,I,K and
J,I,K+1): the source again selects np.where(nz less than nzb), the same
orientation as the first scan (deeper cell with greater zone), so these
faces are visited a second time; from_zones is the upper layer cell,
to_zones the deeper cell, q stored at the upper cell. -/
def flfRawB2T (d : Dims) (izone : Zone3) (ich : Mask3) (bud : Grid3) :
    List (Int × Int × ℚ) :=
  ((idxList (d.nlay - 1) d.nrow d.ncol).filter fun p =>
      decide (izone p.1 p.2.1 p.2.2 < izone (p.1 + 1) p.2.1 p.2.2)).map
    fun p =>
      let l := p.1
      let r := p.2.1
      let c := p.2.2
      (izone l r c, izone (l + 1) r c,
        if ich l r c && ich (l + 1) r c then 0 else bud l r c)

/-- Raw triples of the first flf constant-head scan: constant-head cells not
in the top layer, paired with the neighbor in the layer above. -/
def flfRawCHT2B (d : Dims) (izone : Zone3) (ich : Mask3) (bud : Grid3) :
    List (Int × Int × ℚ) :=
  ((idxList d.nlay d.nrow d.ncol).filter fun p =>
      ich p.1 p.2.1 p.2.2 && decide (0 < p.1)).map
    fun p =>
      let l := p.1
      let r := p.2.1
      let c := p.2.2
      (izone (l - 1) r c, izone l r c,
        if ich l r c && ich (l - 1) r c then 0 else bud (l - 1) r c)

/-- Raw triples of the second flf constant-head scan: constant-head cells not
in the bottom layer, paired with the neighbor in the layer below. -/
def flfRawCHB2T (d : Dims) (izone : Zone3) (ich : Mask3) (bud : Grid3) :
    List (Int × Int × ℚ) :=
  ((idxList d.nlay d.nrow d.ncol).filter fun p =>
      ich p.1 p.2.1 p.2.2 && decide (p.1 < d.nlay - 1)).map
    fun p =>
      let l := p.1
      let r := p.2.1
      let c := p.2.2
      (izone l r c, izone (l + 1) r c,
        if ich l r c && ich (l + 1) r c then 0 else bud l r c)

/-- ZoneBudget._accumulate_flow_flf, assembled like the frf variant. -/
def accumulateFlowFlf (d : Dims) (izone : Zone3) (ich : Mask3) (bud : Grid3)
    (L : Ledger) : Ledger :=
  let L1 := applyUpds L (chUpds (flfRawCHT2B d izone ich bud))
  let L2 := applyUpds L1 (chUpds (flfRawCHB2T d izone ich bud))
  applyUpds L2 (transferUpds
    (nzgtTuples (flfRawT2B d izone ich bud)
      ++ nzgtTuples (flfRawB2T d izone ich bud)))

/-! ### Source/sink/storage normalization and accumulation -/

/-- The raw data of one non-internal-flow record, by imeth family. -/
inductive TermData
  | list (entries : List (Nat × ℚ))
  | full (arr : Grid3)
  | layered (rlay : Nat → Nat → Int) (rdata : Nat → Nat → ℚ)
  | plane (arr : Nat → Nat → ℚ)

/-- The errors raised by ZoneBudget.get_budget, in the order of the code. -/
inductive ZBError
  | noTimeSelector
  | missingTimeSelector
  | invalidZoneId (zs : List Int)
  | shapeMismatch
  | payloadMismatch (name : String)
  | unrecognizedImeth (name : String) (imeth : Int)
  | nameErrorSwiich
deriving DecidableEq

/-- Linearisation of a C-ordered 3-D index. -/
def flatIdx (d : Dims) (l r c : Nat) : Nat :=
  l * (d.nrow * d.ncol) + r * d.ncol + c

/-- Scatter of an imeth 2/5 list into a flat volume: positive entries are
added into the budin half (pos = true), strictly negative entries into the
budout half, and each entry lands at its 1-based node index minus 1;
duplicates accumulate because the code uses +=. -/
def listScatter (entries : List (Nat × ℚ)) (pos : Bool) : Nat → ℚ :=
  entries.foldl
    (fun a e =>
      if (if pos then decide (0 < e.2) else decide (e.2 < 0)) then
        fun i => if i = e.1 - 1 then a i + e.2 else a i
      else a)
    fun _ => 0

/-- Sign split of a dense array: budin keeps strictly positive cells, budout
strictly negative cells, all other cells zero. -/
def signSplit (a : Grid3) : Grid3 × Grid3 :=
  (fun l r c => if 0 < a l r c then a l r c else 0,
   fun l r c => if a l r c < 0 then a l r c else 0)

/-- The imeth dispatch of the source/sink/storage loop of get_budget:
produces the (budin, budout) pair or fails with the Unrecognized imeth
exception. Indexing a payload whose shape does not fit the imeth raises in
numpy; that is modeled by payloadMismatch. -/
def normalizeSSST (d : Dims) (name : String) (imeth : Int) (data : TermData) :
    Except ZBError (Grid3 × Grid3) :=
  if imeth = 2 ∨ imeth = 5 then
    match data with
    | .list es =>
        .ok (fun l r c => listScatter es true (flatIdx d l r c),
             fun l r c => listScatter es false (flatIdx d l r c))
    | _ => .error (.payloadMismatch name)
  else if imeth = 0 ∨ imeth = 1 then
    match data with
    | .full a => .ok (signSplit a)
    | _ => .error (.payloadMismatch name)
  else if imeth = 3 then
    match data with
    | .layered rlay rdata =>
        .ok (signSplit fun l r c =>
          if (l : Int) = rlay r c - 1 then rdata r c else 0)
    | _ => .error (.payloadMismatch name)
  else if imeth = 4 then
    match data with
    | .plane a =>
        .ok (signSplit fun l r c => if l = 0 then a r c else 0)
    | _ => .error (.payloadMismatch name)
  else .error (.unrecognizedImeth name imeth)

/-- Sum of an array over the cells of one zone (budin[(izone == z)].sum()). -/
def zoneSum (d : Dims) (izone : Zone3) (z : Int) (a : Grid3) : ℚ :=
  (((idxList d.nlay d.nrow d.ncol).filter fun p =>
      decide (izone p.1 p.2.1 p.2.2 = z)).map fun p => a p.1 p.2.1 p.2.2).sum

/-- The _update_record calls of ZoneBudget._accumulate_flow_ssst: for each
zone of lstzon, |budin restricted to the zone, summed| into the in row of
the term, then likewise for budout into the out row. -/
def ssstUpds (d : Dims) (name : String) (budin budout : Grid3) (izone : Zone3)
    (lstzon : List Int) : List Upd :=
  (lstzon.map fun z =>
      (⟨.inflow, .term name, z, |zoneSum d izone z budin|⟩ : Upd))
    ++ (lstzon.map fun z =>
      (⟨.outflow, .term name, z, |zoneSum d izone z budout|⟩ : Upd))

/-- ZoneBudget._accumulate_flow_ssst. -/
def accumulateFlowSsst (d : Dims) (name : String) (budin budout : Grid3)
    (izone : Zone3) (lstzon : List Int) (L : Ledger) : Ledger :=
  applyUpds L (ssstUpds d name budin budout izone lstzon)

/-! ### The get_budget pipeline -/

/-- One non-internal-flow record of the budget source. -/
structure SsstTerm where
  name : String
  imeth : Int
  data : TermData

/-- The budget-source data consumed by one get_budget call: which internal
flow records exist, their full3D arrays for the requested time, and the
remaining records in file order. -/
structure CBCSource where
  dims : Dims
  hasCH : Bool
  hasFRF : Bool
  hasFFF : Bool
  hasFLF : Bool
  hasSwiCH : Bool
  hasSwiFRF : Bool
  hasSwiFFF : Bool
  hasSwiFLF : Bool
  chd : Grid3
  frf : Grid3
  fff : Grid3
  flf : Grid3
  swichd : Grid3
  swifrf : Grid3
  swifff : Grid3
  swiflf : Grid3
  ssst : List SsstTerm

/-- The caller-supplied zone array: either 2-D or 3-D. -/
inductive ZArr
  | two (nrow ncol : Nat) (f : Nat → Nat → Int)
  | three (nlay nrow ncol : Nat) (f : Nat → Nat → Nat → Int)

/-- All values of the zone array, in C order. -/
def zValues : ZArr → List Int
  | .two nr nc f =>
      (List.range nr).flatMap fun r => (List.range nc).map fun c => f r c
  | .three nl nr nc f =>
      (idxList nl nr nc).map fun p => f p.1 p.2.1 p.2.2

/-- The negative entries of np.unique(z): the distinct negative values of the
zone array (np.unique also sorts; only the set of values is used here). -/
def negativeZones (z : ZArr) : List Int :=
  ((zValues z).dedup).filter fun v => decide (v < 0)

/-- The zone validation and normalization prefix of get_budget: negative
values first, then the 2-D broadcast or exact 3-D shape check. A 2-D array
whose row or column count does not fit the model raises inside the numpy
assignment; that and the final shape assert are both modeled as
shapeMismatch. -/
def validateZones (d : Dims) (z : ZArr) : Except ZBError Zone3 :=
  if negativeZones z ≠ [] then .error (.invalidZoneId (negativeZones z))
  else
    match z with
    | .two nr nc f =>
        if d.nlay = 1 then
          if nr = d.nrow ∧ nc = d.ncol then
            .ok fun l r c => if l = 0 then f r c else 0
          else .error .shapeMismatch
        else .error .shapeMismatch
    | .three nl nr nc f =>
        if nl = d.nlay ∧ nr = d.nrow ∧ nc = d.ncol then .ok f
        else .error .shapeMismatch

/-- List of unique zone numbers lstzon (np.unique over izone; np.unique
sorts, here first-occurrence order is kept, and only membership and
distinctness are used). -/
def zoneList (d : Dims) (izone : Zone3) : List Int :=
  ((idxList d.nlay d.nrow d.ncol).map fun p => izone p.1 p.2.1 p.2.2).dedup

/-- The source/sink/storage loop at the end of get_budget: each remaining
record is normalized and accumulated in file order; an unrecognized imeth
raises at that point, leaving the partially accumulated record array as the
engine state. -/
def ssstLoop (d : Dims) (izone : Zone3) (lstzon : List Int) :
    List SsstTerm → Ledger → Except (ZBError × Option Ledger) Ledger
  | [], L => .ok L
  | t :: ts, L =>
      match normalizeSSST d t.name t.imeth t.data with
      | .error e => .error (e, some L)
      | .ok pair =>
          ssstLoop d izone lstzon ts
            (accumulateFlowSsst d t.name pair.1 pair.2 izone lstzon L)

/-- A guarded accumulation step: applied only when the record is present. -/
def condAcc (flag : Bool) (acc : Ledger → Ledger) (L : Ledger) : Ledger :=
  if flag then acc L else L

/-- An SWI accumulation step: when the face-flow record is present, using the
swiich variable raises a NameError if SWIADDTOCH was absent (the variable was
never assigned); the engine state at the raise is the current record array. -/
def swiAcc (flag : Bool) (swiich : Option Mask3) (acc : Mask3 → Ledger → Ledger)
    (L : Ledger) : Except (ZBError × Option Ledger) Ledger :=
  if flag then
    match swiich with
    | none => .error (.nameErrorSwiich, some L)
    | some m => .ok (acc m L)
  else .ok L

/-- The primary constant-head mask ich: pre-initialized to zeros, then set
from the CONSTANT HEAD record when it is present. -/
def primaryMask (src : CBCSource) : Mask3 :=
  if src.hasCH then fun l r c => decide (src.chd l r c ≠ 0)
  else fun _ _ _ => false

/-- The SWI constant-head mask swiich: bound only when SWIADDTOCH is
present. -/
def swiMask (src : CBCSource) : Option Mask3 :=
  if src.hasSwiCH then some fun l r c => decide (src.swichd l r c ≠ 0)
  else none

/-- The primary-process internal-flow accumulation: FLOW RIGHT FACE, FLOW
FRONT FACE, FLOW LOWER FACE, each applied when present. -/
def internalLedger (src : CBCSource) (izone : Zone3) (L0 : Ledger) : Ledger :=
  condAcc src.hasFLF
    (accumulateFlowFlf src.dims izone (primaryMask src) src.flf)
    (condAcc src.hasFFF
      (accumulateFlowFff src.dims izone (primaryMask src) src.fff)
      (condAcc src.hasFRF
        (accumulateFlowFrf src.dims izone (primaryMask src) src.frf) L0))

/-- The internal-flow part of get_budget: the primary terms never raise; the
SWI face-flow terms raise a NameError when SWIADDTOCH is absent. -/
def runInternal (src : CBCSource) (izone : Zone3) (L0 : Ledger) :
    Except (ZBError × Option Ledger) Ledger :=
  match swiAcc src.hasSwiFRF (swiMask src)
      (fun m => accumulateFlowFrf src.dims izone m src.swifrf)
      (internalLedger src izone L0) with
  | .error e => .error e
  | .ok L4 =>
      match swiAcc src.hasSwiFFF (swiMask src)
          (fun m => accumulateFlowFff src.dims izone m src.swifff) L4 with
      | .error e => .error e
      | .ok L5 =>
          swiAcc src.hasSwiFLF (swiMask src)
            (fun m => accumulateFlowFlf src.dims izone m src.swiflf) L5

/-- ZoneBudget.get_budget: time-selector checks, zone validation, record
initialization, internal-flow accumulation, then the source/sink/storage
loop. The error side carries the state of the zonbudrecords instance
attribute at the moment the exception is raised (none when it is raised
before _initialize_records has run in this call). -/
def getBudget (src : CBCSource) (hasTimeArg timeExists : Bool) (z : ZArr) :
    Except (ZBError × Option Ledger) Ledger :=
  if hasTimeArg then
    if timeExists then
      match validateZones src.dims z with
      | .error e => .error (e, none)
      | .ok izone =>
          let d := src.dims
          let lstzon := zoneList d izone
          let L0 := initializeRecords src.hasCH (src.ssst.map fun t => t.name)
            lstzon
          match runInternal src izone L0 with
          | .error e => .error e
          | .ok L => ssstLoop d izone lstzon src.ssst L
    else .error (.missingTimeSelector, none)
  else .error (.noTimeSelector, none)

/-! ### The Budget wrapper -/

/-- Budget.get_total_inflow at one zone column: sum of the in rows. -/
def totalInflow (L : Ledger) (z : Int) : ℚ :=
  ((L.rows.filter fun row => decide (row.dir = .inflow)).map
    fun row => row.vals z).sum

/-- Budget.get_total_outflow at one zone column: sum of the out rows. -/
def totalOutflow (L : Ledger) (z : Int) : ℚ :=
  ((L.rows.filter fun row => decide (row.dir = .outflow)).map
    fun row => row.vals z).sum

/-- Budget.get_percent_error at one zone column:
100 * (in - out) / ((in + out) / 2) followed by np.nan_to_num. Division by
zero yields zero in ℚ; over the ledgers produced by get_budget every cell is
nonnegative, so in + out = 0 forces in - out = 0 and the float computation
produces 0/0 = nan, mapped to exactly 0 by np.nan_to_num, in agreement with
the rational convention. -/
def getPercentError (L : Ledger) (z : Int) : ℚ :=
  100 * (totalInflow L z - totalOutflow L z) /
    ((totalInflow L z + totalOutflow L z) / 2)

/-- Boolean success test of one get_budget call. -/
def isOk (e : Except (ZBError × Option Ledger) Ledger) : Bool :=
  match e with
  | .ok _ => true
  | .error _ => false

/-- The returned ledger of a successful call, an empty ledger otherwise. -/
def okLedger (e : Except (ZBError × Option Ledger) Ledger) : Ledger :=
  match e with
  | .ok L => L
  | .error _ => ⟨[], []⟩

/-- The error code of a failed call. -/
def errCode (e : Except (ZBError × Option Ledger) Ledger) : Option ZBError :=
  match e with
  | .ok _ => none
  | .error p => some p.1

/-- Ledger cell read of the engine state left behind by a failed call. -/
def errValue (e : Except (ZBError × Option Ledger) Ledger) (d : FlowDir)
    (r : RecName) (z : Int) : ℚ :=
  match e with
  | .error (_, some L) => value L d r z
  | _ => 0

/-! ### Generic preservation lemmas -/

theorem applyUpds_nil (L : Ledger) : applyUpds L [] = L := rfl

theorem applyUpds_cons (L : Ledger) (u : Upd) (us : List Upd) :
    applyUpds L (u :: us) =
      applyUpds (updateRecord L u.dir u.rname u.zone u.flux) us := rfl

theorem countRows_applyUpds (us : List Upd) (L : Ledger) (d : FlowDir)
    (r : RecName) : countRows (applyUpds L us) d r = countRows L d r := by
  induction us generalizing L with
  | nil => rfl
  | cons u us ih => rw [applyUpds_cons, ih, countRows_update]

theorem cols_applyUpds (us : List Upd) (L : Ledger) :
    (applyUpds L us).cols = L.cols := by
  induction us generalizing L with
  | nil => rfl
  | cons u us ih => rw [applyUpds_cons, ih, updateRecord_cols]

theorem value_applyUpds_ne (us : List Upd) (L : Ledger) (d1 : FlowDir)
    (r1 : RecName) (z1 : Int) (h : ∀ u ∈ us, u.rname ≠ r1) :
    value (applyUpds L us) d1 r1 z1 = value L d1 r1 z1 := by
  induction us generalizing L with
  | nil => rfl
  | cons u us ih =>
      rw [applyUpds_cons, ih _ fun v hv => h v (List.mem_cons_of_mem u hv),
        value_update]
      have : ¬ (u.zone ≠ 0 ∧ d1 = u.dir ∧ r1 = u.rname ∧ z1 = u.zone) := by
        intro hcon
        exact h u (List.mem_cons_self u us) hcon.2.2.1.symm
      simp [this]

/-- Nonnegativity of every ledger cell. -/
def LedgerNonneg (L : Ledger) : Prop :=
  ∀ row ∈ L.rows, ∀ w : Int, 0 ≤ row.vals w

theorem ledgerNonneg_update (L : Ledger) (d : FlowDir) (r : RecName) (z : Int)
    (f : ℚ) (hf : 0 ≤ f) (hL : LedgerNonneg L) :
    LedgerNonneg (updateRecord L d r z f) := by
  rw [updateRecord_eq]
  split
  · exact hL
  · intro row hrow w
    simp only [List.mem_map] at hrow
    obtain ⟨row0, hmem, hrow0⟩ := hrow
    subst hrow0
    rw [bumpRow_vals]
    have h0 := hL row0 hmem w
    split
    · linarith
    · linarith

theorem ledgerNonneg_applyUpds (us : List Upd) (L : Ledger)
    (hus : ∀ u ∈ us, 0 ≤ u.flux) (hL : LedgerNonneg L) :
    LedgerNonneg (applyUpds L us) := by
  induction us generalizing L with
  | nil => exact hL
  | cons u us ih =>
      rw [applyUpds_cons]
      exact ih _ (fun v hv => hus v (List.mem_cons_of_mem u hv))
        (ledgerNonneg_update L _ _ _ _ (hus u (List.mem_cons_self u us)) hL)

theorem chUpds_flux_nonneg (raw : List (Int × Int × ℚ)) :
    ∀ u ∈ chUpds raw, 0 ≤ u.flux := by
  intro u hu
  simp only [chUpds, List.mem_append, List.mem_map] at hu
  rcases hu with ⟨t, _, rfl⟩ | ⟨t, _, rfl⟩ <;> exact abs_nonneg _

theorem chUpds_rname (raw : List (Int × Int × ℚ)) :
    ∀ u ∈ chUpds raw, u.rname = .constantHead := by
  intro u hu
  simp only [chUpds, List.mem_append, List.mem_map] at hu
  rcases hu with ⟨t, _, rfl⟩ | ⟨t, _, rfl⟩ <;> rfl

theorem nzgtTuples_flux_nonneg (raw : List (Int × Int × ℚ)) :
    ∀ t ∈ nzgtTuples raw, 0 ≤ t.2.2 := by
  intro t ht
  simp only [nzgtTuples, List.mem_append, List.mem_map] at ht
  rcases ht with ⟨s, _, rfl⟩ | ⟨s, _, rfl⟩ <;> exact abs_nonneg _

theorem transferUpds_flux_nonneg (ts : List (Int × Int × ℚ))
    (hts : ∀ t ∈ ts, 0 ≤ t.2.2) : ∀ u ∈ transferUpds ts, 0 ≤ u.flux := by
  intro u hu
  simp only [transferUpds, List.mem_flatMap] at hu
  obtain ⟨t, htm, hum⟩ := hu
  have := hts t htm
  simp only [List.mem_cons, List.mem_singleton] at hum
  rcases hum with rfl | rfl | h
  · exact this
  · exact this
  · exact absurd h (List.not_mem_nil u)

theorem ssstUpds_flux_nonneg (d : Dims) (name : String) (bi bo : Grid3)
    (izone : Zone3) (lst : List Int) :
    ∀ u ∈ ssstUpds d name bi bo izone lst, 0 ≤ u.flux := by
  intro u hu
  simp only [ssstUpds, List.mem_append, List.mem_map] at hu
  rcases hu with ⟨z, _, rfl⟩ | ⟨z, _, rfl⟩ <;> exact abs_nonneg _

theorem ssstUpds_rname (d : Dims) (name : String) (bi bo : Grid3)
    (izone : Zone3) (lst : List Int) :
    ∀ u ∈ ssstUpds d name bi bo izone lst, u.rname = .term name := by
  intro u hu
  simp only [ssstUpds, List.mem_append, List.mem_map] at hu
  rcases hu with ⟨z, _, rfl⟩ | ⟨z, _, rfl⟩ <;> rfl

/-! ### Pairwise symmetry infrastructure -/

/-- Pairwise symmetry of the FROM ZONE / TO ZONE rows at the nonzero zone
columns (the ZONE 0 column does not exist in the dtype). -/
def Sym (L : Ledger) : Prop :=
  ∀ A B : Int, A ≠ 0 → B ≠ 0 →
    value L .inflow (.fromZone A) B = value L .outflow (.toZone B) A

/-- Every zone of the list owns exactly one FROM ZONE row and one TO ZONE
row. -/
def PairCounts (lst : List Int) (L : Ledger) : Prop :=
  ∀ z ∈ lst, countRows L .inflow (.fromZone z) = 1 ∧
    countRows L .outflow (.toZone z) = 1

theorem pairCounts_applyUpds (lst : List Int) (us : List Upd) (L : Ledger)
    (h : PairCounts lst L) : PairCounts lst (applyUpds L us) := by
  intro z hz
  rw [countRows_applyUpds, countRows_applyUpds]
  exact h z hz

theorem sym_applyUpds_ne (us : List Upd) (L : Ledger)
    (h : ∀ u ∈ us, ∀ w : Int, u.rname ≠ .fromZone w ∧ u.rname ≠ .toZone w)
    (hs : Sym L) : Sym (applyUpds L us) := by
  intro A B hA hB
  rw [value_applyUpds_ne us L _ _ _ fun u hu => (h u hu A).1,
    value_applyUpds_ne us L _ _ _ fun u hu => (h u hu B).2]
  exact hs A B hA hB

theorem sym_transfer_step (lst : List Int) (L : Ledger) (a b : Int) (m : ℚ)
    (ha : a ∈ lst) (hb : b ∈ lst) (hcnt : PairCounts lst L) (hsym : Sym L) :
    Sym (updateRecord (updateRecord L .inflow (.fromZone a) b m)
      .outflow (.toZone b) a m) := by
  intro A B hA hB
  rw [value_update, value_update, value_update, value_update,
    countRows_update]
  have hfrom : countRows L .inflow (.fromZone a) = 1 := (hcnt a ha).1
  have hto : countRows L .outflow (.toZone b) = 1 := (hcnt b hb).2
  have hbase := hsym A B hA hB
  by_cases hab : A = a ∧ B = b
  · obtain ⟨rfl, rfl⟩ := hab
    simp [hA, hB, hfrom, hto, hbase]
  · by_cases hAa : A = a
    · have hBb : B ≠ b := fun h => hab ⟨hAa, h⟩
      subst hAa
      simp [hBb, hbase]
    · simp [hAa, hbase]

theorem sym_transferUpds (lst : List Int) (ts : List (Int × Int × ℚ))
    (L : Ledger) (hts : ∀ t ∈ ts, t.1 ∈ lst ∧ t.2.1 ∈ lst)
    (hcnt : PairCounts lst L) (hsym : Sym L) :
    Sym (applyUpds L (transferUpds ts)) := by
  induction ts generalizing L with
  | nil => exact hsym
  | cons t ts ih =>
      have hstep : applyUpds L (transferUpds (t :: ts)) =
          applyUpds
            (updateRecord (updateRecord L .inflow (.fromZone t.1) t.2.1 t.2.2)
              .outflow (.toZone t.2.1) t.1 t.2.2) (transferUpds ts) := rfl
      rw [hstep]
      have hmem := hts t (List.mem_cons_self t ts)
      apply ih
      · exact fun s hs => hts s (List.mem_cons_of_mem t hs)
      · intro z hz
        rw [countRows_update, countRows_update, countRows_update,
          countRows_update]
        exact hcnt z hz
      · exact sym_transfer_step lst L t.1 t.2.1 t.2.2 hmem.1 hmem.2 hcnt hsym

theorem nzgtTuples_zones (lst : List Int) (raw : List (Int × Int × ℚ))
    (hraw : ∀ t ∈ raw, t.1 ∈ lst ∧ t.2.1 ∈ lst) :
    ∀ t ∈ nzgtTuples raw, t.1 ∈ lst ∧ t.2.1 ∈ lst := by
  intro t ht
  simp only [nzgtTuples, List.mem_append, List.mem_map, List.mem_filter] at ht
  rcases ht with ⟨s, ⟨hs, _⟩, rfl⟩ | ⟨s, ⟨hs, _⟩, rfl⟩
  · exact ⟨(hraw s hs).2, (hraw s hs).1⟩
  · exact ⟨(hraw s hs).1, (hraw s hs).2⟩

theorem mem_idxList (a b n : Nat) (p : Nat × Nat × Nat) :
    p ∈ idxList a b n ↔ p.1 < a ∧ p.2.1 < b ∧ p.2.2 < n := by
  obtain ⟨l, r, c⟩ := p
  simp only [idxList, List.mem_flatMap, List.mem_map, List.mem_range,
    Prod.mk.injEq]
  constructor
  · rintro ⟨l0, hl0, r0, hr0, c0, hc0, rfl, rfl, rfl⟩
    exact ⟨hl0, hr0, hc0⟩
  · rintro ⟨hl, hr, hc⟩
    exact ⟨l, hl, r, hr, c, hc, rfl, rfl, rfl⟩

theorem mem_zoneList (d : Dims) (izone : Zone3) (l r c : Nat)
    (hl : l < d.nlay) (hr : r < d.nrow) (hc : c < d.ncol) :
    izone l r c ∈ zoneList d izone := by
  unfold zoneList
  rw [List.mem_dedup]
  exact List.mem_map_of_mem _ ((mem_idxList _ _ _ (l, r, c)).2 ⟨hl, hr, hc⟩)

theorem frfRawL2R_zones (d : Dims) (izone : Zone3) (ich : Mask3)
    (bud : Grid3) : ∀ t ∈ frfRawL2R d izone ich bud,
      t.1 ∈ zoneList d izone ∧ t.2.1 ∈ zoneList d izone := by
  intro t ht
  simp only [frfRawL2R, List.mem_map, List.mem_filter] at ht
  obtain ⟨p, ⟨hp, _⟩, rfl⟩ := ht
  rw [mem_idxList] at hp
  refine ⟨mem_zoneList d izone _ _ _ hp.1 hp.2.1 (by omega),
    mem_zoneList d izone _ _ _ hp.1 hp.2.1 (by omega)⟩

theorem frfRawR2L_zones (d : Dims) (izone : Zone3) (ich : Mask3)
    (bud : Grid3) : ∀ t ∈ frfRawR2L d izone ich bud,
      t.1 ∈ zoneList d izone ∧ t.2.1 ∈ zoneList d izone := by
  intro t ht
  simp only [frfRawR2L, List.mem_map, List.mem_filter] at ht
  obtain ⟨p, ⟨hp, _⟩, rfl⟩ := ht
  rw [mem_idxList] at hp
  refine ⟨mem_zoneList d izone _ _ _ hp.1 hp.2.1 (by omega),
    mem_zoneList d izone _ _ _ hp.1 hp.2.1 (by omega)⟩

theorem fffRawU2D_zones (d : Dims) (izone : Zone3) (ich : Mask3)
    (bud : Grid3) : ∀ t ∈ fffRawU2D d izone ich bud,
      t.1 ∈ zoneList d izone ∧ t.2.1 ∈ zoneList d izone := by
  intro t ht
  simp only [fffRawU2D, List.mem_map, List.mem_filter] at ht
  obtain ⟨p, ⟨hp, _⟩, rfl⟩ := ht
  rw [mem_idxList] at hp
  refine ⟨mem_zoneList d izone _ _ _ hp.1 (by omega) hp.2.2,
    mem_zoneList d izone _ _ _ hp.1 (by omega) hp.2.2⟩

theorem fffRawD2U_zones (d : Dims) (izone : Zone3) (ich : Mask3)
    (bud : Grid3) : ∀ t ∈ fffRawD2U d izone ich bud,
      t.1 ∈ zoneList d izone ∧ t.2.1 ∈ zoneList d izone := by
  intro t ht
  simp only [fffRawD2U, List.mem_map, List.mem_filter] at ht
  obtain ⟨p, ⟨hp, _⟩, rfl⟩ := ht
  rw [mem_idxList] at hp
  refine ⟨mem_zoneList d izone _ _ _ hp.1 (by omega) hp.2.2,
    mem_zoneList d izone _ _ _ hp.1 (by omega) hp.2.2⟩

theorem flfRawT2B_zones (d : Dims) (izone : Zone3) (ich : Mask3)
    (bud : Grid3) : ∀ t ∈ flfRawT2B d izone ich bud,
      t.1 ∈ zoneList d izone ∧ t.2.1 ∈ zoneList d izone := by
  intro t ht
  simp only [flfRawT2B, List.mem_map, List.mem_filter] at ht
  obtain ⟨p, ⟨hp, _⟩, rfl⟩ := ht
  rw [mem_idxList] at hp
  refine ⟨mem_zoneList d izone _ _ _ (by omega) hp.2.1 hp.2.2,
    mem_zoneList d izone _ _ _ (by omega) hp.2.1 hp.2.2⟩

theorem flfRawB2T_zones (d : Dims) (izone : Zone3) (ich : Mask3)
    (bud : Grid3) : ∀ t ∈ flfRawB2T d izone ich bud,
      t.1 ∈ zoneList d izone ∧ t.2.1 ∈ zoneList d izone := by
  intro t ht
  simp only [flfRawB2T, List.mem_map, List.mem_filter] at ht
  obtain ⟨p, ⟨hp, _⟩, rfl⟩ := ht
  rw [mem_idxList] at hp
  refine ⟨mem_zoneList d izone _ _ _ (by omega) hp.2.1 hp.2.2,
    mem_zoneList d izone _ _ _ (by omega) hp.2.1 hp.2.2⟩

/-! ### Initialization lemmas -/

theorem rowsValue_append (xs ys : List LRow) (d : FlowDir) (r : RecName)
    (z : Int) : rowsValue (xs ++ ys) d r z =
      rowsValue xs d r z + rowsValue ys d r z := by
  induction xs with
  | nil => simp [rowsValue]
  | cons x xs ih => simp [rowsValue, ih]; ring

theorem rowsCount_append (xs ys : List LRow) (d : FlowDir) (r : RecName) :
    rowsCount (xs ++ ys) d r = rowsCount xs d r + rowsCount ys d r := by
  induction xs with
  | nil => simp [rowsCount]
  | cons x xs ih => simp [rowsCount, ih]; omega

theorem rowsValue_map_emptyRow {α : Type} (xs : List α) (g : α → LRow)
    (hg : ∀ x, (g x).vals = fun _ => 0) (d : FlowDir) (r : RecName)
    (z : Int) : rowsValue (xs.map g) d r z = 0 := by
  induction xs with
  | nil => rfl
  | cons x xs ih =>
      simp only [List.map_cons, rowsValue, ih, hg x, add_zero]
      split <;> rfl

theorem rowsValue_chBlock (hasCH : Bool) (d0 d : FlowDir) (r : RecName)
    (z : Int) :
    rowsValue (if hasCH then [emptyRow d0 .constantHead] else []) d r z = 0 := by
  cases hasCH <;> simp [rowsValue, emptyRow]

theorem value_initializeRecords (hasCH : Bool) (ns : List String)
    (lst : List Int) (d : FlowDir) (r : RecName) (z : Int) :
    value (initializeRecords hasCH ns lst) d r z = 0 := by
  unfold value initializeRecords
  simp only [rowsValue_append]
  rw [rowsValue_chBlock, rowsValue_chBlock,
    rowsValue_map_emptyRow _ _ (fun n => rfl),
    rowsValue_map_emptyRow _ _ (fun n => rfl),
    rowsValue_map_emptyRow _ _ (fun y => rfl),
    rowsValue_map_emptyRow _ _ (fun y => rfl)]
  norm_num

theorem rowsCount_map_emptyRow_eqz (lst : List Int) (d0 : FlowDir)
    (g : Int → RecName) (hg : ∀ w z, g w = g z ↔ w = z) (z : Int) :
    rowsCount (lst.map fun w => emptyRow d0 (g w)) d0 (g z) = lst.count z := by
  induction lst with
  | nil => rfl
  | cons w lst ih =>
      simp only [List.map_cons, rowsCount, ih, List.count_cons]
      by_cases hw : w = z
      · subst hw
        simp [matchKey, emptyRow]
        omega
      · have hgwz : ¬ g w = g z := fun h => hw ((hg w z).1 h)
        simp [matchKey, emptyRow, hgwz, hw]

theorem rowsCount_of_mismatch {α : Type} (xs : List α) (g : α → LRow)
    (d : FlowDir) (r : RecName)
    (h : ∀ x, ¬((g x).dir = d ∧ (g x).rname = r)) :
    rowsCount (xs.map g) d r = 0 := by
  induction xs with
  | nil => rfl
  | cons x xs ih =>
      have hx : matchKey d r (g x) = false := by
        have := h x
        simp [matchKey]
        intro h1
        exact fun h2 => this ⟨h1, h2⟩
      simp only [List.map_cons, rowsCount, ih, hx]
      simp

theorem rowsCount_chBlock (hasCH : Bool) (d0 d : FlowDir) (r : RecName)
    (h : ¬(d0 = d ∧ RecName.constantHead = r)) :
    rowsCount (if hasCH then [emptyRow d0 .constantHead] else []) d r = 0 := by
  cases hasCH
  · rfl
  · have hx : matchKey d r (emptyRow d0 .constantHead) = false := by
      simp [matchKey, emptyRow]
      intro h1
      exact fun h2 => h ⟨h1, h2⟩
    simp [rowsCount, hx]

theorem countRows_init_fromZone (hasCH : Bool) (ns : List String)
    (lst : List Int) (z : Int) :
    countRows (initializeRecords hasCH ns lst) .inflow (.fromZone z) =
      lst.count z := by
  unfold countRows initializeRecords
  simp only [rowsCount_append]
  rw [rowsCount_chBlock hasCH .inflow .inflow (.fromZone z) (by simp),
    rowsCount_chBlock hasCH .outflow .inflow (.fromZone z) (by simp),
    rowsCount_of_mismatch ns (fun n => emptyRow .inflow (.term n)) .inflow
      (.fromZone z) (fun n => by simp [emptyRow]),
    rowsCount_of_mismatch ns (fun n => emptyRow .outflow (.term n)) .inflow
      (.fromZone z) (fun n => by simp [emptyRow]),
    rowsCount_of_mismatch lst (fun y => emptyRow .outflow (.toZone y)) .inflow
      (.fromZone z) (fun y => by simp [emptyRow]),
    rowsCount_map_emptyRow_eqz lst .inflow (fun w => .fromZone w)
      (fun w y => by simp) z]
  omega

theorem countRows_init_toZone (hasCH : Bool) (ns : List String)
    (lst : List Int) (z : Int) :
    countRows (initializeRecords hasCH ns lst) .outflow (.toZone z) =
      lst.count z := by
  unfold countRows initializeRecords
  simp only [rowsCount_append]
  rw [rowsCount_chBlock hasCH .inflow .outflow (.toZone z) (by simp),
    rowsCount_chBlock hasCH .outflow .outflow (.toZone z) (by simp),
    rowsCount_of_mismatch ns (fun n => emptyRow .inflow (.term n)) .outflow
      (.toZone z) (fun n => by simp [emptyRow]),
    rowsCount_of_mismatch ns (fun n => emptyRow .outflow (.term n)) .outflow
      (.toZone z) (fun n => by simp [emptyRow]),
    rowsCount_of_mismatch lst (fun y => emptyRow .inflow (.fromZone y)) .outflow
      (.toZone z) (fun y => by simp [emptyRow]),
    rowsCount_map_emptyRow_eqz lst .outflow (fun w => .toZone w)
      (fun w y => by simp) z]
  omega

/-! ### Pipeline preservation -/

/-- The invariant carried through one get_budget call for the pairwise
symmetry property. -/
def Inv (lst : List Int) (L : Ledger) : Prop := Sym L ∧ PairCounts lst L

theorem inv_chStep (lst : List Int) (L : Ledger)
    (raw : List (Int × Int × ℚ)) (h : Inv lst L) :
    Inv lst (applyUpds L (chUpds raw)) := by
  obtain ⟨hs, hc⟩ := h
  refine ⟨?_, pairCounts_applyUpds _ _ _ hc⟩
  apply sym_applyUpds_ne _ _ ?_ hs
  intro u hu w
  rw [chUpds_rname _ u hu]
  exact ⟨by simp, by simp⟩

theorem inv_transferStep (lst : List Int) (L : Ledger)
    (ts : List (Int × Int × ℚ)) (hts : ∀ t ∈ ts, t.1 ∈ lst ∧ t.2.1 ∈ lst)
    (h : Inv lst L) : Inv lst (applyUpds L (transferUpds ts)) :=
  ⟨sym_transferUpds lst ts L hts h.2 h.1,
    pairCounts_applyUpds lst (transferUpds ts) L h.2⟩

theorem inv_accFrf (d : Dims) (izone : Zone3) (ich : Mask3) (bud : Grid3)
    (L : Ledger) (h : Inv (zoneList d izone) L) :
    Inv (zoneList d izone) (accumulateFlowFrf d izone ich bud L) := by
  unfold accumulateFlowFrf
  apply inv_transferStep
  · intro t ht
    rw [List.mem_append] at ht
    rcases ht with ht | ht
    · exact nzgtTuples_zones _ _ (frfRawL2R_zones d izone ich bud) t ht
    · exact nzgtTuples_zones _ _ (frfRawR2L_zones d izone ich bud) t ht
  · exact inv_chStep _ _ _ (inv_chStep _ _ _ h)

theorem inv_accFff (d : Dims) (izone : Zone3) (ich : Mask3) (bud : Grid3)
    (L : Ledger) (h : Inv (zoneList d izone) L) :
    Inv (zoneList d izone) (accumulateFlowFff d izone ich bud L) := by
  unfold accumulateFlowFff
  apply inv_transferStep
  · intro t ht
    rw [List.mem_append] at ht
    rcases ht with ht | ht
    · exact nzgtTuples_zones _ _ (fffRawU2D_zones d izone ich bud) t ht
    · exact nzgtTuples_zones _ _ (fffRawD2U_zones d izone ich bud) t ht
  · exact inv_chStep _ _ _ (inv_chStep _ _ _ h)

theorem inv_accFlf (d : Dims) (izone : Zone3) (ich : Mask3) (bud : Grid3)
    (L : Ledger) (h : Inv (zoneList d izone) L) :
    Inv (zoneList d izone) (accumulateFlowFlf d izone ich bud L) := by
  unfold accumulateFlowFlf
  apply inv_transferStep
  · intro t ht
    rw [List.mem_append] at ht
    rcases ht with ht | ht
    · exact nzgtTuples_zones _ _ (flfRawT2B_zones d izone ich bud) t ht
    · exact nzgtTuples_zones _ _ (flfRawB2T_zones d izone ich bud) t ht
  · exact inv_chStep _ _ _ (inv_chStep _ _ _ h)

theorem inv_accSsst (d : Dims) (name : String) (bi bo : Grid3) (izone : Zone3)
    (lstp lst : List Int) (L : Ledger) (h : Inv lstp L) :
    Inv lstp (accumulateFlowSsst d name bi bo izone lst L) := by
  obtain ⟨hs, hc⟩ := h
  refine ⟨?_, pairCounts_applyUpds _ _ _ hc⟩
  apply sym_applyUpds_ne _ _ _ hs
  intro u hu w
  rw [ssstUpds_rname _ _ _ _ _ _ u hu]
  exact ⟨by simp, by simp⟩

theorem condAcc_preserve (P : Ledger → Prop) (flag : Bool)
    (acc : Ledger → Ledger) (L : Ledger) (hacc : ∀ M, P M → P (acc M))
    (h : P L) : P (condAcc flag acc L) := by
  unfold condAcc
  split
  · exact hacc L h
  · exact h

theorem swiAcc_ok_preserve (P : Ledger → Prop) (flag : Bool)
    (sw : Option Mask3) (acc : Mask3 → Ledger → Ledger) (L L2 : Ledger)
    (hok : swiAcc flag sw acc L = .ok L2)
    (hacc : ∀ m M, P M → P (acc m M)) (h : P L) : P L2 := by
  unfold swiAcc at hok
  split at hok
  · split at hok
    · exact absurd hok (by simp)
    · rw [Except.ok.injEq] at hok
      subst hok
      exact hacc _ _ h
  · rw [Except.ok.injEq] at hok
    subst hok
    exact h

theorem internalLedger_preserve (P : Ledger → Prop) (src : CBCSource)
    (izone : Zone3) (L0 : Ledger)
    (hfrf : ∀ ich bud M, P M → P (accumulateFlowFrf src.dims izone ich bud M))
    (hfff : ∀ ich bud M, P M → P (accumulateFlowFff src.dims izone ich bud M))
    (hflf : ∀ ich bud M, P M → P (accumulateFlowFlf src.dims izone ich bud M))
    (hL0 : P L0) : P (internalLedger src izone L0) := by
  unfold internalLedger
  apply condAcc_preserve _ _ _ _ (fun M h => hflf _ _ M h)
  apply condAcc_preserve _ _ _ _ (fun M h => hfff _ _ M h)
  exact condAcc_preserve _ _ _ _ (fun M h => hfrf _ _ M h) hL0

theorem runInternal_ok_preserve (P : Ledger → Prop) (src : CBCSource)
    (izone : Zone3) (L0 L : Ledger)
    (hok : runInternal src izone L0 = .ok L)
    (hfrf : ∀ ich bud M, P M → P (accumulateFlowFrf src.dims izone ich bud M))
    (hfff : ∀ ich bud M, P M → P (accumulateFlowFff src.dims izone ich bud M))
    (hflf : ∀ ich bud M, P M → P (accumulateFlowFlf src.dims izone ich bud M))
    (hL0 : P L0) : P L := by
  have h3 : P (internalLedger src izone L0) :=
    internalLedger_preserve P src izone L0 hfrf hfff hflf hL0
  unfold runInternal at hok
  rcases h4ok : swiAcc src.hasSwiFRF (swiMask src)
      (fun m => accumulateFlowFrf src.dims izone m src.swifrf)
      (internalLedger src izone L0) with e | L4
  · rw [h4ok] at hok
    exact absurd hok (by simp)
  · rw [h4ok] at hok
    dsimp only at hok
    have h4 : P L4 :=
      swiAcc_ok_preserve P _ _ _ _ _ h4ok (fun m M h => hfrf _ _ M h) h3
    rcases h5ok : swiAcc src.hasSwiFFF (swiMask src)
        (fun m => accumulateFlowFff src.dims izone m src.swifff) L4 with
        e | L5
    · rw [h5ok] at hok
      exact absurd hok (by simp)
    · rw [h5ok] at hok
      dsimp only at hok
      have h5 : P L5 :=
        swiAcc_ok_preserve P _ _ _ _ _ h5ok (fun m M h => hfff _ _ M h) h4
      exact swiAcc_ok_preserve P _ _ _ _ _ hok (fun m M h => hflf _ _ M h) h5

theorem ssstLoop_ok_preserve (P : Ledger → Prop) (d : Dims) (izone : Zone3)
    (lst : List Int) (ts : List SsstTerm) (L L2 : Ledger)
    (hok : ssstLoop d izone lst ts L = .ok L2)
    (hacc : ∀ name bi bo M, P M →
      P (accumulateFlowSsst d name bi bo izone lst M))
    (h : P L) : P L2 := by
  induction ts generalizing L with
  | nil =>
      unfold ssstLoop at hok
      rw [Except.ok.injEq] at hok
      subst hok
      exact h
  | cons t ts ih =>
      unfold ssstLoop at hok
      split at hok
      · exact absurd hok (by simp)
      · exact ih _ hok (hacc _ _ _ _ h)

theorem getBudget_ok_decomp (src : CBCSource) (hT tE : Bool) (z : ZArr)
    (L : Ledger) (h : getBudget src hT tE z = .ok L) :
    ∃ izone L1, validateZones src.dims z = .ok izone ∧
      runInternal src izone
        (initializeRecords src.hasCH (src.ssst.map fun t => t.name)
          (zoneList src.dims izone)) = .ok L1 ∧
      ssstLoop src.dims izone (zoneList src.dims izone) src.ssst L1 =
        .ok L := by
  unfold getBudget at h
  split at h
  · split at h
    · split at h
      · exact absurd h (by simp)
      · rename_i izone hval
        dsimp only at h
        rcases hri : runInternal src izone
            (initializeRecords src.hasCH (src.ssst.map fun t => t.name)
              (zoneList src.dims izone)) with e | L1
        · rw [hri] at h
          exact absurd h (by simp)
        · rw [hri] at h
          dsimp only at h
          exact ⟨izone, L1, hval, hri, h⟩
    · exact absurd h (by simp)
  · exact absurd h (by simp)

theorem inv_initializeRecords (hasCH : Bool) (ns : List String)
    (d : Dims) (izone : Zone3) :
    Inv (zoneList d izone) (initializeRecords hasCH ns (zoneList d izone)) := by
  constructor
  · intro A B hA hB
    rw [value_initializeRecords, value_initializeRecords]
  · intro w hw
    have hnd : (zoneList d izone).Nodup := List.nodup_dedup _
    rw [countRows_init_fromZone, countRows_init_toZone]
    exact ⟨List.count_eq_one_of_mem hnd hw, List.count_eq_one_of_mem hnd hw⟩

theorem getBudget_ok_sym (src : CBCSource) (hT tE : Bool) (z : ZArr)
    (L : Ledger) (h : getBudget src hT tE z = .ok L) : Sym L := by
  obtain ⟨izone, L1, hval, hri, hloop⟩ := getBudget_ok_decomp src hT tE z L h
  have hL1 : Inv (zoneList src.dims izone) L1 :=
    runInternal_ok_preserve (Inv (zoneList src.dims izone)) src izone _ L1 hri
      (inv_accFrf src.dims izone) (inv_accFff src.dims izone)
      (inv_accFlf src.dims izone)
      (inv_initializeRecords src.hasCH _ src.dims izone)
  exact (ssstLoop_ok_preserve (Inv (zoneList src.dims izone)) src.dims izone
    _ src.ssst L1 L hloop
    (fun name bi bo M hM =>
      inv_accSsst src.dims name bi bo izone _ _ M hM) hL1).1

/-! ### Nonnegativity through the pipeline -/

theorem ledgerNonneg_initializeRecords (hasCH : Bool) (ns : List String)
    (lst : List Int) : LedgerNonneg (initializeRecords hasCH ns lst) := by
  intro row hrow w
  simp only [initializeRecords, List.mem_append, List.mem_map] at hrow
  rcases hrow with ((((h | h) | h) | h) | h) | h
  · cases hasCH <;> simp_all [emptyRow]
  · obtain ⟨x, _, rfl⟩ := h
    simp [emptyRow]
  · obtain ⟨x, _, rfl⟩ := h
    simp [emptyRow]
  · cases hasCH <;> simp_all [emptyRow]
  · obtain ⟨x, _, rfl⟩ := h
    simp [emptyRow]
  · obtain ⟨x, _, rfl⟩ := h
    simp [emptyRow]

theorem nonneg_accFrf (d : Dims) (izone : Zone3) (ich : Mask3) (bud : Grid3)
    (L : Ledger) (h : LedgerNonneg L) :
    LedgerNonneg (accumulateFlowFrf d izone ich bud L) := by
  unfold accumulateFlowFrf
  apply ledgerNonneg_applyUpds
  · apply transferUpds_flux_nonneg
    intro t ht
    rw [List.mem_append] at ht
    rcases ht with ht | ht
    · exact nzgtTuples_flux_nonneg _ t ht
    · exact nzgtTuples_flux_nonneg _ t ht
  · exact ledgerNonneg_applyUpds _ _ (chUpds_flux_nonneg _)
      (ledgerNonneg_applyUpds _ _ (chUpds_flux_nonneg _) h)

theorem nonneg_accFff (d : Dims) (izone : Zone3) (ich : Mask3) (bud : Grid3)
    (L : Ledger) (h : LedgerNonneg L) :
    LedgerNonneg (accumulateFlowFff d izone ich bud L) := by
  unfold accumulateFlowFff
  apply ledgerNonneg_applyUpds
  · apply transferUpds_flux_nonneg
    intro t ht
    rw [List.mem_append] at ht
    rcases ht with ht | ht
    · exact nzgtTuples_flux_nonneg _ t ht
    · exact nzgtTuples_flux_nonneg _ t ht
  · exact ledgerNonneg_applyUpds _ _ (chUpds_flux_nonneg _)
      (ledgerNonneg_applyUpds _ _ (chUpds_flux_nonneg _) h)

theorem nonneg_accFlf (d : Dims) (izone : Zone3) (ich : Mask3) (bud : Grid3)
    (L : Ledger) (h : LedgerNonneg L) :
    LedgerNonneg (accumulateFlowFlf d izone ich bud L) := by
  unfold accumulateFlowFlf
  apply ledgerNonneg_applyUpds
  · apply transferUpds_flux_nonneg
    intro t ht
    rw [List.mem_append] at ht
    rcases ht with ht | ht
    · exact nzgtTuples_flux_nonneg _ t ht
    · exact nzgtTuples_flux_nonneg _ t ht
  · exact ledgerNonneg_applyUpds _ _ (chUpds_flux_nonneg _)
      (ledgerNonneg_applyUpds _ _ (chUpds_flux_nonneg _) h)

theorem getBudget_ok_nonneg (src : CBCSource) (hT tE : Bool) (z : ZArr)
    (L : Ledger) (h : getBudget src hT tE z = .ok L) : LedgerNonneg L := by
  obtain ⟨izone, L1, hval, hri, hloop⟩ := getBudget_ok_decomp src hT tE z L h
  have hL1 : LedgerNonneg L1 :=
    runInternal_ok_preserve LedgerNonneg src izone _ L1 hri
      (nonneg_accFrf src.dims izone) (nonneg_accFff src.dims izone)
      (nonneg_accFlf src.dims izone)
      (ledgerNonneg_initializeRecords src.hasCH _ _)
  exact ssstLoop_ok_preserve LedgerNonneg src.dims izone _ src.ssst L1 L hloop
    (fun name bi bo M hM =>
      ledgerNonneg_applyUpds _ _ (ssstUpds_flux_nonneg _ _ _ _ _ _) hM) hL1

theorem totalInflow_nonneg (L : Ledger) (h : LedgerNonneg L) (z : Int) :
    0 ≤ totalInflow L z := by
  unfold totalInflow
  apply List.sum_nonneg
  intro q hq
  simp only [List.mem_map, List.mem_filter] at hq
  obtain ⟨row, ⟨hrow, _⟩, rfl⟩ := hq
  exact h row hrow z

theorem totalOutflow_nonneg (L : Ledger) (h : LedgerNonneg L) (z : Int) :
    0 ≤ totalOutflow L z := by
  unfold totalOutflow
  apply List.sum_nonneg
  intro q hq
  simp only [List.mem_map, List.mem_filter] at hq
  obtain ⟨row, ⟨hrow, _⟩, rfl⟩ := hq
  exact h row hrow z

/-! ### Column preservation through the pipeline -/

theorem cols_accFrf (d : Dims) (izone : Zone3) (ich : Mask3) (bud : Grid3)
    (L : Ledger) :
    (accumulateFlowFrf d izone ich bud L).cols = L.cols := by
  unfold accumulateFlowFrf
  rw [cols_applyUpds, cols_applyUpds, cols_applyUpds]

theorem cols_accFff (d : Dims) (izone : Zone3) (ich : Mask3) (bud : Grid3)
    (L : Ledger) :
    (accumulateFlowFff d izone ich bud L).cols = L.cols := by
  unfold accumulateFlowFff
  rw [cols_applyUpds, cols_applyUpds, cols_applyUpds]

theorem cols_accFlf (d : Dims) (izone : Zone3) (ich : Mask3) (bud : Grid3)
    (L : Ledger) :
    (accumulateFlowFlf d izone ich bud L).cols = L.cols := by
  unfold accumulateFlowFlf
  rw [cols_applyUpds, cols_applyUpds, cols_applyUpds]

theorem getBudget_ok_cols (src : CBCSource) (hT tE : Bool) (z : ZArr)
    (L : Ledger) (h : getBudget src hT tE z = .ok L) :
    ∃ izone, validateZones src.dims z = .ok izone ∧
      L.cols = (zoneList src.dims izone).filter fun v => decide (v ≠ 0) := by
  obtain ⟨izone, L1, hval, hri, hloop⟩ := getBudget_ok_decomp src hT tE z L h
  refine ⟨izone, hval, ?_⟩
  have hL1 : L1.cols = (zoneList src.dims izone).filter
      (fun v => decide (v ≠ 0)) :=
    runInternal_ok_preserve
      (fun M => M.cols = (zoneList src.dims izone).filter
        fun v => decide (v ≠ 0)) src izone _ L1 hri
      (fun ich bud M hM => by dsimp only; rw [cols_accFrf]; exact hM)
      (fun ich bud M hM => by dsimp only; rw [cols_accFff]; exact hM)
      (fun ich bud M hM => by dsimp only; rw [cols_accFlf]; exact hM)
      rfl
  exact ssstLoop_ok_preserve
    (fun M => M.cols = (zoneList src.dims izone).filter
      fun v => decide (v ≠ 0)) src.dims izone _ src.ssst L1 L hloop
    (fun name bi bo M hM => by
      dsimp only
      unfold accumulateFlowSsst
      rw [cols_applyUpds]
      exact hM) hL1

/-! ### Recognized imeth values -/

theorem normalizeSSST_ok_imeth (d : Dims) (name : String) (imeth : Int)
    (data : TermData) (p : Grid3 × Grid3)
    (h : normalizeSSST d name imeth data = .ok p) :
    imeth = 0 ∨ imeth = 1 ∨ imeth = 2 ∨ imeth = 3 ∨ imeth = 4 ∨ imeth = 5 := by
  unfold normalizeSSST at h
  split_ifs at h with h1 h2 h3 h4
  all_goals tauto

theorem ssstLoop_ok_imeth (d : Dims) (izone : Zone3) (lst : List Int)
    (ts : List SsstTerm) (L L2 : Ledger)
    (hok : ssstLoop d izone lst ts L = .ok L2) :
    ∀ t ∈ ts, t.imeth = 0 ∨ t.imeth = 1 ∨ t.imeth = 2 ∨ t.imeth = 3 ∨
      t.imeth = 4 ∨ t.imeth = 5 := by
  induction ts generalizing L with
  | nil => intro t ht; exact absurd ht (List.not_mem_nil t)
  | cons t ts ih =>
      intro s hs
      unfold ssstLoop at hok
      rcases hn : normalizeSSST d t.name t.imeth t.data with e | p
      · rw [hn] at hok
        exact absurd hok (by simp)
      · rw [hn] at hok
        dsimp only at hok
        rcases List.mem_cons.1 hs with rfl | hs2
        · exact normalizeSSST_ok_imeth d s.name s.imeth s.data p hn
        · exact ih _ hok s hs2

/-! ### List scatter characterization -/

theorem listScatter_go (entries : List (Nat × ℚ)) (pos : Bool)
    (a : Nat → ℚ) (i : Nat) :
    entries.foldl
        (fun b e =>
          if (if pos then decide (0 < e.2) else decide (e.2 < 0)) then
            fun j => if j = e.1 - 1 then b j + e.2 else b j
          else b) a i =
      a i + ((entries.filter fun e =>
          decide (i = e.1 - 1) &&
            (if pos then decide (0 < e.2) else decide (e.2 < 0))).map
        Prod.snd).sum := by
  induction entries generalizing a with
  | nil => simp
  | cons e es ih =>
      rw [List.foldl_cons, ih]
      by_cases hq : (if pos then decide (0 < e.2) else decide (e.2 < 0)) = true
      · by_cases hi : i = e.1 - 1
        · simp [hq, hi, List.filter_cons]
          ring
        · simp [hq, hi, List.filter_cons]
      · by_cases hi : i = e.1 - 1
        · simp [hq, hi, List.filter_cons]
        · simp [hq, hi, List.filter_cons]

theorem listScatter_eq (entries : List (Nat × ℚ)) (pos : Bool) (i : Nat) :
    listScatter entries pos i =
      ((entries.filter fun e =>
          decide (i = e.1 - 1) &&
            (if pos then decide (0 < e.2) else decide (e.2 < 0))).map
        Prod.snd).sum := by
  unfold listScatter
  rw [listScatter_go]
  simp

/-! ### Face-level attribution characterization -/

/-- The corrected attribution rule, to be compared with the swizzle-unpack
pipeline of the source: a is the zone of the lesser-index cell of the face,
b the zone of the greater-index cell, q the (possibly zeroed) face value; a
negative value makes the greater-index zone the from-zone, a nonnegative
value the lesser-index zone, with magnitude |q|. -/
def attribRule (a b : Int) (q : ℚ) : Int × Int × ℚ :=
  if q < 0 then (b, a, |q|) else (a, b, |q|)

/-- The corrected constant-head rule: the column written is the zone a of
the lesser-index cell of the pair, direction in for a negative value and out
otherwise, with magnitude |q|. -/
def chRule (a : Int) (q : ℚ) : Upd :=
  if q < 0 then ⟨.inflow, .constantHead, a, |q|⟩
  else ⟨.outflow, .constantHead, a, |q|⟩

theorem mem_nzgtTuples (raw : List (Int × Int × ℚ)) (t : Int × Int × ℚ) :
    t ∈ nzgtTuples raw ↔ ∃ s ∈ raw, t = attribRule s.1 s.2.1 s.2.2 := by
  simp only [nzgtTuples, List.mem_append, List.mem_map, List.mem_filter,
    decide_eq_true_eq]
  constructor
  · rintro (⟨s, ⟨hs, hq⟩, rfl⟩ | ⟨s, ⟨hs, hq⟩, rfl⟩)
    · exact ⟨s, hs, by simp [attribRule, hq]⟩
    · exact ⟨s, hs, by simp [attribRule, not_lt.mpr hq]⟩
  · rintro ⟨s, hs, rfl⟩
    by_cases hq : s.2.2 < 0
    · exact Or.inl ⟨s, ⟨hs, hq⟩, by simp [attribRule, hq]⟩
    · exact Or.inr ⟨s, ⟨hs, not_lt.mp hq⟩, by simp [attribRule, hq]⟩

theorem mem_chUpds (raw : List (Int × Int × ℚ)) (u : Upd) :
    u ∈ chUpds raw ↔ ∃ s ∈ raw, u = chRule s.1 s.2.2 := by
  simp only [chUpds, List.mem_append, List.mem_map, List.mem_filter,
    decide_eq_true_eq]
  constructor
  · rintro (⟨s, ⟨hs, hq⟩, rfl⟩ | ⟨s, ⟨hs, hq⟩, rfl⟩)
    · exact ⟨s, hs, by simp [chRule, hq]⟩
    · exact ⟨s, hs, by simp [chRule, not_lt.mpr hq]⟩
  · rintro ⟨s, hs, rfl⟩
    by_cases hq : s.2.2 < 0
    · exact Or.inl ⟨s, ⟨hs, hq⟩, by simp [chRule, hq]⟩
    · exact Or.inr ⟨s, ⟨hs, not_lt.mp hq⟩, by simp [chRule, hq]⟩

theorem mem_frfRawL2R (d : Dims) (izone : Zone3) (ich : Mask3) (bud : Grid3)
    (s : Int × Int × ℚ) :
    s ∈ frfRawL2R d izone ich bud ↔
    ∃ l r c, l < d.nlay ∧ r < d.nrow ∧ c + 1 < d.ncol ∧
      izone l r c < izone l r (c + 1) ∧
      s = (izone l r c, izone l r (c + 1),
        if ich l r c && ich l r (c + 1) then 0 else bud l r c) := by
  simp only [frfRawL2R, List.mem_map, List.mem_filter, mem_idxList,
    decide_eq_true_eq]
  constructor
  · rintro ⟨⟨l, r, c⟩, ⟨⟨hl, hr, hc⟩, hlt⟩, rfl⟩
    dsimp only at hl hr hc hlt ⊢
    refine ⟨l, r, c, hl, hr, by omega, hlt, ?_⟩
    simp [Nat.add_sub_cancel, Bool.and_comm]
  · rintro ⟨l, r, c, hl, hr, hc, hlt, rfl⟩
    refine ⟨(l, r, c), ⟨⟨by dsimp only; exact hl, by dsimp only; exact hr,
      by dsimp only; omega⟩, by dsimp only; exact hlt⟩, ?_⟩
    simp [Nat.add_sub_cancel, Bool.and_comm]

theorem mem_frfRawR2L (d : Dims) (izone : Zone3) (ich : Mask3) (bud : Grid3)
    (s : Int × Int × ℚ) :
    s ∈ frfRawR2L d izone ich bud ↔
    ∃ l r c, l < d.nlay ∧ r < d.nrow ∧ c + 1 < d.ncol ∧
      izone l r (c + 1) < izone l r c ∧
      s = (izone l r c, izone l r (c + 1),
        if ich l r c && ich l r (c + 1) then 0 else bud l r c) := by
  simp only [frfRawR2L, List.mem_map, List.mem_filter, mem_idxList,
    decide_eq_true_eq]
  constructor
  · rintro ⟨⟨l, r, c⟩, ⟨⟨hl, hr, hc⟩, hlt⟩, rfl⟩
    dsimp only at hl hr hc hlt ⊢
    exact ⟨l, r, c, hl, hr, by omega, hlt, rfl⟩
  · rintro ⟨l, r, c, hl, hr, hc, hlt, rfl⟩
    exact ⟨(l, r, c), ⟨⟨by dsimp only; exact hl, by dsimp only; exact hr,
      by dsimp only; omega⟩, by dsimp only; exact hlt⟩, rfl⟩

theorem mem_fffRawU2D (d : Dims) (izone : Zone3) (ich : Mask3) (bud : Grid3)
    (s : Int × Int × ℚ) :
    s ∈ fffRawU2D d izone ich bud ↔
    ∃ l r c, l < d.nlay ∧ r + 1 < d.nrow ∧ c < d.ncol ∧
      izone l (r + 1) c < izone l r c ∧
      s = (izone l r c, izone l (r + 1) c,
        if ich l r c && ich l (r + 1) c then 0 else bud l r c) := by
  simp only [fffRawU2D, List.mem_map, List.mem_filter, mem_idxList,
    decide_eq_true_eq]
  constructor
  · rintro ⟨⟨l, r, c⟩, ⟨⟨hl, hr, hc⟩, hlt⟩, rfl⟩
    dsimp only at hl hr hc hlt ⊢
    refine ⟨l, r, c, hl, by omega, hc, hlt, ?_⟩
    simp [Nat.add_sub_cancel, Bool.and_comm]
  · rintro ⟨l, r, c, hl, hr, hc, hlt, rfl⟩
    refine ⟨(l, r, c), ⟨⟨by dsimp only; exact hl, by dsimp only; omega,
      by dsimp only; exact hc⟩, by dsimp only; exact hlt⟩, ?_⟩
    simp [Nat.add_sub_cancel, Bool.and_comm]

theorem mem_fffRawD2U (d : Dims) (izone : Zone3) (ich : Mask3) (bud : Grid3)
    (s : Int × Int × ℚ) :
    s ∈ fffRawD2U d izone ich bud ↔
    ∃ l r c, l < d.nlay ∧ r + 1 < d.nrow ∧ c < d.ncol ∧
      izone l r c < izone l (r + 1) c ∧
      s = (izone l r c, izone l (r + 1) c,
        if ich l r c && ich l (r + 1) c then 0 else bud l r c) := by
  simp only [fffRawD2U, List.mem_map, List.mem_filter, mem_idxList,
    decide_eq_true_eq]
  constructor
  · rintro ⟨⟨l, r, c⟩, ⟨⟨hl, hr, hc⟩, hlt⟩, rfl⟩
    dsimp only at hl hr hc hlt ⊢
    exact ⟨l, r, c, hl, by omega, hc, hlt, rfl⟩
  · rintro ⟨l, r, c, hl, hr, hc, hlt, rfl⟩
    exact ⟨(l, r, c), ⟨⟨by dsimp only; exact hl, by dsimp only; omega,
      by dsimp only; exact hc⟩, by dsimp only; exact hlt⟩, rfl⟩

theorem mem_flfRawT2B (d : Dims) (izone : Zone3) (ich : Mask3) (bud : Grid3)
    (s : Int × Int × ℚ) :
    s ∈ flfRawT2B d izone ich bud ↔
    ∃ l r c, l + 1 < d.nlay ∧ r < d.nrow ∧ c < d.ncol ∧
      izone l r c < izone (l + 1) r c ∧
      s = (izone l r c, izone (l + 1) r c,
        if ich l r c && ich (l + 1) r c then 0 else bud l r c) := by
  simp only [flfRawT2B, List.mem_map, List.mem_filter, mem_idxList,
    decide_eq_true_eq]
  constructor
  · rintro ⟨⟨l, r, c⟩, ⟨⟨hl, hr, hc⟩, hlt⟩, rfl⟩
    dsimp only at hl hr hc hlt ⊢
    refine ⟨l, r, c, by omega, hr, hc, hlt, ?_⟩
    simp [Nat.add_sub_cancel, Bool.and_comm]
  · rintro ⟨l, r, c, hl, hr, hc, hlt, rfl⟩
    refine ⟨(l, r, c), ⟨⟨by dsimp only; omega, by dsimp only; exact hr,
      by dsimp only; exact hc⟩, by dsimp only; exact hlt⟩, ?_⟩
    simp [Nat.add_sub_cancel, Bool.and_comm]

theorem mem_flfRawB2T (d : Dims) (izone : Zone3) (ich : Mask3) (bud : Grid3)
    (s : Int × Int × ℚ) :
    s ∈ flfRawB2T d izone ich bud ↔
    ∃ l r c, l + 1 < d.nlay ∧ r < d.nrow ∧ c < d.ncol ∧
      izone l r c < izone (l + 1) r c ∧
      s = (izone l r c, izone (l + 1) r c,
        if ich l r c && ich (l + 1) r c then 0 else bud l r c) := by
  simp only [flfRawB2T, List.mem_map, List.mem_filter, mem_idxList,
    decide_eq_true_eq]
  constructor
  · rintro ⟨⟨l, r, c⟩, ⟨⟨hl, hr, hc⟩, hlt⟩, rfl⟩
    dsimp only at hl hr hc hlt ⊢
    exact ⟨l, r, c, by omega, hr, hc, hlt, rfl⟩
  · rintro ⟨l, r, c, hl, hr, hc, hlt, rfl⟩
    exact ⟨(l, r, c), ⟨⟨by dsimp only; omega, by dsimp only; exact hr,
      by dsimp only; exact hc⟩, by dsimp only; exact hlt⟩, rfl⟩

theorem frf_transfer_mem (d : Dims) (izone : Zone3) (ich : Mask3)
    (bud : Grid3) (t : Int × Int × ℚ) :
    t ∈ nzgtTuples (frfRawL2R d izone ich bud)
        ++ nzgtTuples (frfRawR2L d izone ich bud) ↔
    ∃ l r c, l < d.nlay ∧ r < d.nrow ∧ c + 1 < d.ncol ∧
      izone l r c ≠ izone l r (c + 1) ∧
      t = attribRule (izone l r c) (izone l r (c + 1))
        (if ich l r c && ich l r (c + 1) then 0 else bud l r c) := by
  rw [List.mem_append, mem_nzgtTuples, mem_nzgtTuples]
  constructor
  · rintro (⟨s, hs, rfl⟩ | ⟨s, hs, rfl⟩)
    · obtain ⟨l, r, c, hl, hr, hc, hlt, rfl⟩ :=
        (mem_frfRawL2R d izone ich bud s).1 hs
      exact ⟨l, r, c, hl, hr, hc, ne_of_lt hlt, rfl⟩
    · obtain ⟨l, r, c, hl, hr, hc, hlt, rfl⟩ :=
        (mem_frfRawR2L d izone ich bud s).1 hs
      exact ⟨l, r, c, hl, hr, hc, ne_of_gt hlt, rfl⟩
  · rintro ⟨l, r, c, hl, hr, hc, hne, rfl⟩
    rcases lt_or_gt_of_ne hne with hlt | hgt
    · exact Or.inl ⟨_, (mem_frfRawL2R d izone ich bud _).2
        ⟨l, r, c, hl, hr, hc, hlt, rfl⟩, rfl⟩
    · exact Or.inr ⟨_, (mem_frfRawR2L d izone ich bud _).2
        ⟨l, r, c, hl, hr, hc, hgt, rfl⟩, rfl⟩

theorem fff_transfer_mem (d : Dims) (izone : Zone3) (ich : Mask3)
    (bud : Grid3) (t : Int × Int × ℚ) :
    t ∈ nzgtTuples (fffRawU2D d izone ich bud)
        ++ nzgtTuples (fffRawD2U d izone ich bud) ↔
    ∃ l r c, l < d.nlay ∧ r + 1 < d.nrow ∧ c < d.ncol ∧
      izone l r c ≠ izone l (r + 1) c ∧
      t = attribRule (izone l r c) (izone l (r + 1) c)
        (if ich l r c && ich l (r + 1) c then 0 else bud l r c) := by
  rw [List.mem_append, mem_nzgtTuples, mem_nzgtTuples]
  constructor
  · rintro (⟨s, hs, rfl⟩ | ⟨s, hs, rfl⟩)
    · obtain ⟨l, r, c, hl, hr, hc, hlt, rfl⟩ :=
        (mem_fffRawU2D d izone ich bud s).1 hs
      exact ⟨l, r, c, hl, hr, hc, ne_of_gt hlt, rfl⟩
    · obtain ⟨l, r, c, hl, hr, hc, hlt, rfl⟩ :=
        (mem_fffRawD2U d izone ich bud s).1 hs
      exact ⟨l, r, c, hl, hr, hc, ne_of_lt hlt, rfl⟩
  · rintro ⟨l, r, c, hl, hr, hc, hne, rfl⟩
    rcases lt_or_gt_of_ne hne with hlt | hgt
    · exact Or.inr ⟨_, (mem_fffRawD2U d izone ich bud _).2
        ⟨l, r, c, hl, hr, hc, hlt, rfl⟩, rfl⟩
    · exact Or.inl ⟨_, (mem_fffRawU2D d izone ich bud _).2
        ⟨l, r, c, hl, hr, hc, hgt, rfl⟩, rfl⟩

theorem flf_transfer_mem (d : Dims) (izone : Zone3) (ich : Mask3)
    (bud : Grid3) (t : Int × Int × ℚ) :
    t ∈ nzgtTuples (flfRawT2B d izone ich bud)
        ++ nzgtTuples (flfRawB2T d izone ich bud) ↔
    ∃ l r c, l + 1 < d.nlay ∧ r < d.nrow ∧ c < d.ncol ∧
      izone l r c < izone (l + 1) r c ∧
      t = attribRule (izone l r c) (izone (l + 1) r c)
        (if ich l r c && ich (l + 1) r c then 0 else bud l r c) := by
  rw [List.mem_append, mem_nzgtTuples, mem_nzgtTuples]
  constructor
  · rintro (⟨s, hs, rfl⟩ | ⟨s, hs, rfl⟩)
    · obtain ⟨l, r, c, hl, hr, hc, hlt, rfl⟩ :=
        (mem_flfRawT2B d izone ich bud s).1 hs
      exact ⟨l, r, c, hl, hr, hc, hlt, rfl⟩
    · obtain ⟨l, r, c, hl, hr, hc, hlt, rfl⟩ :=
        (mem_flfRawB2T d izone ich bud s).1 hs
      exact ⟨l, r, c, hl, hr, hc, hlt, rfl⟩
  · rintro ⟨l, r, c, hl, hr, hc, hlt, rfl⟩
    exact Or.inl ⟨_, (mem_flfRawT2B d izone ich bud _).2
      ⟨l, r, c, hl, hr, hc, hlt, rfl⟩, rfl⟩

theorem mem_frfRawCHL2R (d : Dims) (izone : Zone3) (ich : Mask3)
    (bud : Grid3) (s : Int × Int × ℚ) :
    s ∈ frfRawCHL2R d izone ich bud ↔
    ∃ l r c, l < d.nlay ∧ r < d.nrow ∧ c + 1 < d.ncol ∧
      ich l r (c + 1) = true ∧
      s = (izone l r c, izone l r (c + 1),
        if ich l r c && ich l r (c + 1) then 0 else bud l r c) := by
  simp only [frfRawCHL2R, List.mem_map, List.mem_filter, mem_idxList,
    Bool.and_eq_true, decide_eq_true_eq]
  constructor
  · rintro ⟨⟨l, r, c⟩, ⟨⟨hl, hr, hc⟩, hich, h0⟩, rfl⟩
    dsimp only at hl hr hc hich h0 ⊢
    have he : c - 1 + 1 = c := by omega
    refine ⟨l, r, c - 1, hl, hr, by omega, by rw [he]; exact hich, ?_⟩
    rw [he]
    exact congrArg (fun p => (izone l r (c - 1), izone l r c, p))
      (if_congr and_comm rfl rfl)
  · rintro ⟨l, r, c, hl, hr, hc, hich, rfl⟩
    refine ⟨(l, r, c + 1), ⟨⟨by dsimp only; exact hl, by dsimp only; exact hr,
      by dsimp only; omega⟩, by dsimp only; exact hich,
      by dsimp only; omega⟩, ?_⟩
    dsimp only
    rw [Nat.add_sub_cancel]
    exact congrArg (fun p => (izone l r c, izone l r (c + 1), p))
      (if_congr and_comm rfl rfl)

theorem mem_frfRawCHR2L (d : Dims) (izone : Zone3) (ich : Mask3)
    (bud : Grid3) (s : Int × Int × ℚ) :
    s ∈ frfRawCHR2L d izone ich bud ↔
    ∃ l r c, l < d.nlay ∧ r < d.nrow ∧ c + 1 < d.ncol ∧
      ich l r c = true ∧
      s = (izone l r c, izone l r (c + 1),
        if ich l r c && ich l r (c + 1) then 0 else bud l r c) := by
  simp only [frfRawCHR2L, List.mem_map, List.mem_filter, mem_idxList,
    Bool.and_eq_true, decide_eq_true_eq]
  constructor
  · rintro ⟨⟨l, r, c⟩, ⟨⟨hl, hr, hc⟩, hich, h0⟩, rfl⟩
    dsimp only at hl hr hc hich h0 ⊢
    exact ⟨l, r, c, hl, hr, by omega, hich, rfl⟩
  · rintro ⟨l, r, c, hl, hr, hc, hich, rfl⟩
    exact ⟨(l, r, c), ⟨⟨by dsimp only; exact hl, by dsimp only; exact hr,
      by dsimp only; omega⟩, by dsimp only; exact hich,
      by dsimp only; omega⟩, rfl⟩

theorem mem_fffRawCHU2D (d : Dims) (izone : Zone3) (ich : Mask3)
    (bud : Grid3) (s : Int × Int × ℚ) :
    s ∈ fffRawCHU2D d izone ich bud ↔
    ∃ l r c, l < d.nlay ∧ r + 1 < d.nrow ∧ c < d.ncol ∧
      ich l (r + 1) c = true ∧
      s = (izone l r c, izone l (r + 1) c,
        if ich l r c && ich l (r + 1) c then 0 else bud l r c) := by
  simp only [fffRawCHU2D, List.mem_map, List.mem_filter, mem_idxList,
    Bool.and_eq_true, decide_eq_true_eq]
  constructor
  · rintro ⟨⟨l, r, c⟩, ⟨⟨hl, hr, hc⟩, hich, h0⟩, rfl⟩
    dsimp only at hl hr hc hich h0 ⊢
    have he : r - 1 + 1 = r := by omega
    refine ⟨l, r - 1, c, hl, by omega, hc, by rw [he]; exact hich, ?_⟩
    rw [he]
    exact congrArg (fun p => (izone l (r - 1) c, izone l r c, p))
      (if_congr and_comm rfl rfl)
  · rintro ⟨l, r, c, hl, hr, hc, hich, rfl⟩
    refine ⟨(l, r + 1, c), ⟨⟨by dsimp only; exact hl, by dsimp only; omega,
      by dsimp only; exact hc⟩, by dsimp only; exact hich,
      by dsimp only; omega⟩, ?_⟩
    dsimp only
    rw [Nat.add_sub_cancel]
    exact congrArg (fun p => (izone l r c, izone l (r + 1) c, p))
      (if_congr and_comm rfl rfl)

theorem mem_fffRawCHD2U (d : Dims) (izone : Zone3) (ich : Mask3)
    (bud : Grid3) (s : Int × Int × ℚ) :
    s ∈ fffRawCHD2U d izone ich bud ↔
    ∃ l r c, l < d.nlay ∧ r + 1 < d.nrow ∧ c < d.ncol ∧
      ich l r c = true ∧
      s = (izone l r c, izone l (r + 1) c,
        if ich l r c && ich l (r + 1) c then 0 else bud l r c) := by
  simp only [fffRawCHD2U, List.mem_map, List.mem_filter, mem_idxList,
    Bool.and_eq_true, decide_eq_true_eq]
  constructor
  · rintro ⟨⟨l, r, c⟩, ⟨⟨hl, hr, hc⟩, hich, h0⟩, rfl⟩
    dsimp only at hl hr hc hich h0 ⊢
    exact ⟨l, r, c, hl, by omega, hc, hich, rfl⟩
  · rintro ⟨l, r, c, hl, hr, hc, hich, rfl⟩
    exact ⟨(l, r, c), ⟨⟨by dsimp only; exact hl, by dsimp only; omega,
      by dsimp only; exact hc⟩, by dsimp only; exact hich,
      by dsimp only; omega⟩, rfl⟩

theorem mem_flfRawCHT2B (d : Dims) (izone : Zone3) (ich : Mask3)
    (bud : Grid3) (s : Int × Int × ℚ) :
    s ∈ flfRawCHT2B d izone ich bud ↔
    ∃ l r c, l + 1 < d.nlay ∧ r < d.nrow ∧ c < d.ncol ∧
      ich (l + 1) r c = true ∧
      s = (izone l r c, izone (l + 1) r c,
        if ich l r c && ich (l + 1) r c then 0 else bud l r c) := by
  simp only [flfRawCHT2B, List.mem_map, List.mem_filter, mem_idxList,
    Bool.and_eq_true, decide_eq_true_eq]
  constructor
  · rintro ⟨⟨l, r, c⟩, ⟨⟨hl, hr, hc⟩, hich, h0⟩, rfl⟩
    dsimp only at hl hr hc hich h0 ⊢
    have he : l - 1 + 1 = l := by omega
    refine ⟨l - 1, r, c, by omega, hr, hc, by rw [he]; exact hich, ?_⟩
    rw [he]
    exact congrArg (fun p => (izone (l - 1) r c, izone l r c, p))
      (if_congr and_comm rfl rfl)
  · rintro ⟨l, r, c, hl, hr, hc, hich, rfl⟩
    refine ⟨(l + 1, r, c), ⟨⟨by dsimp only; omega, by dsimp only; exact hr,
      by dsimp only; exact hc⟩, by dsimp only; exact hich,
      by dsimp only; omega⟩, ?_⟩
    dsimp only
    rw [Nat.add_sub_cancel]
    exact congrArg (fun p => (izone l r c, izone (l + 1) r c, p))
      (if_congr and_comm rfl rfl)

theorem mem_flfRawCHB2T (d : Dims) (izone : Zone3) (ich : Mask3)
    (bud : Grid3) (s : Int × Int × ℚ) :
    s ∈ flfRawCHB2T d izone ich bud ↔
    ∃ l r c, l + 1 < d.nlay ∧ r < d.nrow ∧ c < d.ncol ∧
      ich l r c = true ∧
      s = (izone l r c, izone (l + 1) r c,
        if ich l r c && ich (l + 1) r c then 0 else bud l r c) := by
  simp only [flfRawCHB2T, List.mem_map, List.mem_filter, mem_idxList,
    Bool.and_eq_true, decide_eq_true_eq]
  constructor
  · rintro ⟨⟨l, r, c⟩, ⟨⟨hl, hr, hc⟩, hich, h0⟩, rfl⟩
    dsimp only at hl hr hc hich h0 ⊢
    exact ⟨l, r, c, by omega, hr, hc, hich, rfl⟩
  · rintro ⟨l, r, c, hl, hr, hc, hich, rfl⟩
    exact ⟨(l, r, c), ⟨⟨by dsimp only; omega, by dsimp only; exact hr,
      by dsimp only; exact hc⟩, by dsimp only; exact hich,
      by dsimp only; omega⟩, rfl⟩

theorem frf_ch_mem (d : Dims) (izone : Zone3) (ich : Mask3) (bud : Grid3)
    (u : Upd) :
    (u ∈ chUpds (frfRawCHL2R d izone ich bud) ∨
      u ∈ chUpds (frfRawCHR2L d izone ich bud)) ↔
    ∃ l r c, l < d.nlay ∧ r < d.nrow ∧ c + 1 < d.ncol ∧
      (ich l r c = true ∨ ich l r (c + 1) = true) ∧
      u = chRule (izone l r c)
        (if ich l r c && ich l r (c + 1) then 0 else bud l r c) := by
  rw [mem_chUpds, mem_chUpds]
  constructor
  · rintro (⟨s, hs, rfl⟩ | ⟨s, hs, rfl⟩)
    · obtain ⟨l, r, c, hl, hr, hc, hich, rfl⟩ :=
        (mem_frfRawCHL2R d izone ich bud s).1 hs
      exact ⟨l, r, c, hl, hr, hc, Or.inr hich, rfl⟩
    · obtain ⟨l, r, c, hl, hr, hc, hich, rfl⟩ :=
        (mem_frfRawCHR2L d izone ich bud s).1 hs
      exact ⟨l, r, c, hl, hr, hc, Or.inl hich, rfl⟩
  · rintro ⟨l, r, c, hl, hr, hc, hich | hich, rfl⟩
    · exact Or.inr ⟨_, (mem_frfRawCHR2L d izone ich bud _).2
        ⟨l, r, c, hl, hr, hc, hich, rfl⟩, rfl⟩
    · exact Or.inl ⟨_, (mem_frfRawCHL2R d izone ich bud _).2
        ⟨l, r, c, hl, hr, hc, hich, rfl⟩, rfl⟩

theorem fff_ch_mem (d : Dims) (izone : Zone3) (ich : Mask3) (bud : Grid3)
    (u : Upd) :
    (u ∈ chUpds (fffRawCHU2D d izone ich bud) ∨
      u ∈ chUpds (fffRawCHD2U d izone ich bud)) ↔
    ∃ l r c, l < d.nlay ∧ r + 1 < d.nrow ∧ c < d.ncol ∧
      (ich l r c = true ∨ ich l (r + 1) c = true) ∧
      u = chRule (izone l r c)
        (if ich l r c && ich l (r + 1) c then 0 else bud l r c) := by
  rw [mem_chUpds, mem_chUpds]
  constructor
  · rintro (⟨s, hs, rfl⟩ | ⟨s, hs, rfl⟩)
    · obtain ⟨l, r, c, hl, hr, hc, hich, rfl⟩ :=
        (mem_fffRawCHU2D d izone ich bud s).1 hs
      exact ⟨l, r, c, hl, hr, hc, Or.inr hich, rfl⟩
    · obtain ⟨l, r, c, hl, hr, hc, hich, rfl⟩ :=
        (mem_fffRawCHD2U d izone ich bud s).1 hs
      exact ⟨l, r, c, hl, hr, hc, Or.inl hich, rfl⟩
  · rintro ⟨l, r, c, hl, hr, hc, hich | hich, rfl⟩
    · exact Or.inr ⟨_, (mem_fffRawCHD2U d izone ich bud _).2
        ⟨l, r, c, hl, hr, hc, hich, rfl⟩, rfl⟩
    · exact Or.inl ⟨_, (mem_fffRawCHU2D d izone ich bud _).2
        ⟨l, r, c, hl, hr, hc, hich, rfl⟩, rfl⟩

theorem flf_ch_mem (d : Dims) (izone : Zone3) (ich : Mask3) (bud : Grid3)
    (u : Upd) :
    (u ∈ chUpds (flfRawCHT2B d izone ich bud) ∨
      u ∈ chUpds (flfRawCHB2T d izone ich bud)) ↔
    ∃ l r c, l + 1 < d.nlay ∧ r < d.nrow ∧ c < d.ncol ∧
      (ich l r c = true ∨ ich (l + 1) r c = true) ∧
      u = chRule (izone l r c)
        (if ich l r c && ich (l + 1) r c then 0 else bud l r c) := by
  rw [mem_chUpds, mem_chUpds]
  constructor
  · rintro (⟨s, hs, rfl⟩ | ⟨s, hs, rfl⟩)
    · obtain ⟨l, r, c, hl, hr, hc, hich, rfl⟩ :=
        (mem_flfRawCHT2B d izone ich bud s).1 hs
      exact ⟨l, r, c, hl, hr, hc, Or.inr hich, rfl⟩
    · obtain ⟨l, r, c, hl, hr, hc, hich, rfl⟩ :=
        (mem_flfRawCHB2T d izone ich bud s).1 hs
      exact ⟨l, r, c, hl, hr, hc, Or.inl hich, rfl⟩
  · rintro ⟨l, r, c, hl, hr, hc, hich | hich, rfl⟩
    · exact Or.inr ⟨_, (mem_flfRawCHB2T d izone ich bud _).2
        ⟨l, r, c, hl, hr, hc, hich, rfl⟩, rfl⟩
    · exact Or.inl ⟨_, (mem_flfRawCHT2B d izone ich bud _).2
        ⟨l, r, c, hl, hr, hc, hich, rfl⟩, rfl⟩

/-! ### Concrete scenarios -/

/-- The 1x1x2 model shape of the two-cell scenarios. -/
def d112 : Dims := ⟨1, 1, 2⟩

/-- Zones [1, 2] on the 1x1x2 grid. -/
def zoneTwo : Zone3 := fun _ _ c => if c = 0 then 1 else 2

/-- A FLOW RIGHT FACE array with value q at the single interior face. -/
def faceBud (q : ℚ) : Grid3 := fun _ _ c => if c = 0 then q else 0

/-- No constant-head cells. -/
def noCH : Mask3 := fun _ _ _ => false

/-- Only the left cell (column 0) is constant head. -/
def chMaskL : Mask3 := fun _ _ c => decide (c = 0)

/-- Only the right cell (column 1) is constant head. -/
def chMaskR : Mask3 := fun _ _ c => decide (c = 1)

/-- An all-zero data array. -/
def allZeroGrid : Grid3 := fun _ _ _ => 0

/-- First half of the sign rule on the two-cell grid, arbitrary source or
sink term names in the record array: a negative face flux q lands as
magnitude |q| in row (in, FROM ZONE 2) column 1 and row (out, TO ZONE 1)
column 2; the cells named by the specification stay zero. -/
theorem frf_twoCell_noCH_neg (ns : List String) (q : ℚ) (hq : q < 0) :
    value (accumulateFlowFrf d112 zoneTwo noCH (faceBud q)
        (initializeRecords false ns [1, 2])) .inflow (.fromZone 2) 1 = -q ∧
    value (accumulateFlowFrf d112 zoneTwo noCH (faceBud q)
        (initializeRecords false ns [1, 2])) .outflow (.toZone 1) 2 = -q ∧
    value (accumulateFlowFrf d112 zoneTwo noCH (faceBud q)
        (initializeRecords false ns [1, 2])) .inflow (.fromZone 1) 2 = 0 ∧
    value (accumulateFlowFrf d112 zoneTwo noCH (faceBud q)
        (initializeRecords false ns [1, 2])) .outflow (.toZone 2) 1 = 0 := by
  have hnz : nzgtTuples (frfRawL2R d112 zoneTwo noCH (faceBud q)) =
      [(2, 1, -q)] := by
    rw [show frfRawL2R d112 zoneTwo noCH (faceBud q) = [(1, 2, q)] from rfl]
    simp [nzgtTuples, hq, abs_of_neg hq, not_le.mpr hq]
  have hacc : accumulateFlowFrf d112 zoneTwo noCH (faceBud q)
      (initializeRecords false ns [1, 2]) =
      updateRecord
        (updateRecord (initializeRecords false ns [1, 2])
          .inflow (.fromZone 2) 1 (-q))
        .outflow (.toZone 1) 2 (-q) := by
    unfold accumulateFlowFrf
    rw [show frfRawCHL2R d112 zoneTwo noCH (faceBud q) = [] from rfl,
      show frfRawCHR2L d112 zoneTwo noCH (faceBud q) = [] from rfl,
      show frfRawR2L d112 zoneTwo noCH (faceBud q) = [] from rfl, hnz]
    rfl
  have c1 : countRows (initializeRecords false ns [1, 2])
      .inflow (.fromZone 2) = 1 := by
    rw [countRows_init_fromZone]; decide
  have c2 : countRows (initializeRecords false ns [1, 2])
      .outflow (.toZone 1) = 1 := by
    rw [countRows_init_toZone]; decide
  refine ⟨?_, ?_, ?_, ?_⟩ <;>
    simp [hacc, value_update, countRows_update, value_initializeRecords,
      c1, c2]

/-- Second half of the sign rule on the two-cell grid: a nonnegative face
flux q lands as magnitude q in row (in, FROM ZONE 1) column 2 and row
(out, TO ZONE 2) column 1. -/
theorem frf_twoCell_noCH_pos (ns : List String) (q : ℚ) (hq : 0 ≤ q) :
    value (accumulateFlowFrf d112 zoneTwo noCH (faceBud q)
        (initializeRecords false ns [1, 2])) .inflow (.fromZone 1) 2 = q ∧
    value (accumulateFlowFrf d112 zoneTwo noCH (faceBud q)
        (initializeRecords false ns [1, 2])) .outflow (.toZone 2) 1 = q ∧
    value (accumulateFlowFrf d112 zoneTwo noCH (faceBud q)
        (initializeRecords false ns [1, 2])) .inflow (.fromZone 2) 1 = 0 ∧
    value (accumulateFlowFrf d112 zoneTwo noCH (faceBud q)
        (initializeRecords false ns [1, 2])) .outflow (.toZone 1) 2 = 0 := by
  have hnz : nzgtTuples (frfRawL2R d112 zoneTwo noCH (faceBud q)) =
      [(1, 2, q)] := by
    rw [show frfRawL2R d112 zoneTwo noCH (faceBud q) = [(1, 2, q)] from rfl]
    simp [nzgtTuples, not_lt.mpr hq, hq, abs_of_nonneg hq]
  have hacc : accumulateFlowFrf d112 zoneTwo noCH (faceBud q)
      (initializeRecords false ns [1, 2]) =
      updateRecord
        (updateRecord (initializeRecords false ns [1, 2])
          .inflow (.fromZone 1) 2 q)
        .outflow (.toZone 2) 1 q := by
    unfold accumulateFlowFrf
    rw [show frfRawCHL2R d112 zoneTwo noCH (faceBud q) = [] from rfl,
      show frfRawCHR2L d112 zoneTwo noCH (faceBud q) = [] from rfl,
      show frfRawR2L d112 zoneTwo noCH (faceBud q) = [] from rfl, hnz]
    rfl
  have c1 : countRows (initializeRecords false ns [1, 2])
      .inflow (.fromZone 1) = 1 := by
    rw [countRows_init_fromZone]; decide
  have c2 : countRows (initializeRecords false ns [1, 2])
      .outflow (.toZone 2) = 1 := by
    rw [countRows_init_toZone]; decide
  refine ⟨?_, ?_, ?_, ?_⟩ <;>
    simp [hacc, value_update, countRows_update, value_initializeRecords,
      c1, c2]

/-- The record array of the constant-head two-cell scenarios: CONSTANT HEAD
is among the record names, zones are [1, 2]. -/
def chLedger0 : Ledger := initializeRecords true [] [1, 2]

theorem frf_twoCell_chR_neg (q : ℚ) (hq : q < 0) :
    value (accumulateFlowFrf d112 zoneTwo chMaskR (faceBud q) chLedger0)
        .inflow .constantHead 1 = -q ∧
    value (accumulateFlowFrf d112 zoneTwo chMaskR (faceBud q) chLedger0)
        .outflow .constantHead 1 = 0 ∧
    value (accumulateFlowFrf d112 zoneTwo chMaskR (faceBud q) chLedger0)
        .inflow .constantHead 2 = 0 ∧
    value (accumulateFlowFrf d112 zoneTwo chMaskR (faceBud q) chLedger0)
        .inflow (.fromZone 2) 1 = -q ∧
    value (accumulateFlowFrf d112 zoneTwo chMaskR (faceBud q) chLedger0)
        .outflow (.toZone 1) 2 = -q := by
  have hch : chUpds (frfRawCHL2R d112 zoneTwo chMaskR (faceBud q)) =
      [⟨.inflow, .constantHead, 1, -q⟩] := by
    rw [show frfRawCHL2R d112 zoneTwo chMaskR (faceBud q) = [(1, 2, q)]
      from rfl]
    simp [chUpds, hq, abs_of_neg hq, not_le.mpr hq]
  have hnz : nzgtTuples (frfRawL2R d112 zoneTwo chMaskR (faceBud q)) =
      [(2, 1, -q)] := by
    rw [show frfRawL2R d112 zoneTwo chMaskR (faceBud q) = [(1, 2, q)]
      from rfl]
    simp [nzgtTuples, hq, abs_of_neg hq, not_le.mpr hq]
  have hacc : accumulateFlowFrf d112 zoneTwo chMaskR (faceBud q) chLedger0 =
      updateRecord
        (updateRecord (updateRecord chLedger0 .inflow .constantHead 1 (-q))
          .inflow (.fromZone 2) 1 (-q))
        .outflow (.toZone 1) 2 (-q) := by
    unfold accumulateFlowFrf
    rw [hch,
      show frfRawCHR2L d112 zoneTwo chMaskR (faceBud q) = [] from rfl,
      show frfRawR2L d112 zoneTwo chMaskR (faceBud q) = [] from rfl, hnz]
    rfl
  have cCH : countRows chLedger0 .inflow .constantHead = 1 := by decide
  have cF2 : countRows chLedger0 .inflow (.fromZone 2) = 1 := by decide
  have cT1 : countRows chLedger0 .outflow (.toZone 1) = 1 := by decide
  have hv0 : ∀ dd rr ww, value chLedger0 dd rr ww = 0 := fun dd rr ww =>
    value_initializeRecords true [] [1, 2] dd rr ww
  refine ⟨?_, ?_, ?_, ?_, ?_⟩ <;>
    simp [hacc, value_update, countRows_update, hv0, cCH, cF2, cT1]

theorem frf_twoCell_chR_pos (q : ℚ) (hq : 0 ≤ q) :
    value (accumulateFlowFrf d112 zoneTwo chMaskR (faceBud q) chLedger0)
        .outflow .constantHead 1 = q ∧
    value (accumulateFlowFrf d112 zoneTwo chMaskR (faceBud q) chLedger0)
        .inflow .constantHead 1 = 0 ∧
    value (accumulateFlowFrf d112 zoneTwo chMaskR (faceBud q) chLedger0)
        .outflow .constantHead 2 = 0 ∧
    value (accumulateFlowFrf d112 zoneTwo chMaskR (faceBud q) chLedger0)
        .inflow (.fromZone 1) 2 = q ∧
    value (accumulateFlowFrf d112 zoneTwo chMaskR (faceBud q) chLedger0)
        .outflow (.toZone 2) 1 = q := by
  have hch : chUpds (frfRawCHL2R d112 zoneTwo chMaskR (faceBud q)) =
      [⟨.outflow, .constantHead, 1, q⟩] := by
    rw [show frfRawCHL2R d112 zoneTwo chMaskR (faceBud q) = [(1, 2, q)]
      from rfl]
    simp [chUpds, not_lt.mpr hq, hq, abs_of_nonneg hq]
  have hnz : nzgtTuples (frfRawL2R d112 zoneTwo chMaskR (faceBud q)) =
      [(1, 2, q)] := by
    rw [show frfRawL2R d112 zoneTwo chMaskR (faceBud q) = [(1, 2, q)]
      from rfl]
    simp [nzgtTuples, not_lt.mpr hq, hq, abs_of_nonneg hq]
  have hacc : accumulateFlowFrf d112 zoneTwo chMaskR (faceBud q) chLedger0 =
      updateRecord
        (updateRecord (updateRecord chLedger0 .outflow .constantHead 1 q)
          .inflow (.fromZone 1) 2 q)
        .outflow (.toZone 2) 1 q := by
    unfold accumulateFlowFrf
    rw [hch,
      show frfRawCHR2L d112 zoneTwo chMaskR (faceBud q) = [] from rfl,
      show frfRawR2L d112 zoneTwo chMaskR (faceBud q) = [] from rfl, hnz]
    rfl
  have cCH : countRows chLedger0 .outflow .constantHead = 1 := by decide
  have cF1 : countRows chLedger0 .inflow (.fromZone 1) = 1 := by decide
  have cT2 : countRows chLedger0 .outflow (.toZone 2) = 1 := by decide
  have hv0 : ∀ dd rr ww, value chLedger0 dd rr ww = 0 := fun dd rr ww =>
    value_initializeRecords true [] [1, 2] dd rr ww
  refine ⟨?_, ?_, ?_, ?_, ?_⟩ <;>
    simp [hacc, value_update, countRows_update, hv0, cCH, cF1, cT2]

theorem frf_twoCell_chL_neg (q : ℚ) (hq : q < 0) :
    value (accumulateFlowFrf d112 zoneTwo chMaskL (faceBud q) chLedger0)
        .inflow .constantHead 1 = -q ∧
    value (accumulateFlowFrf d112 zoneTwo chMaskL (faceBud q) chLedger0)
        .outflow .constantHead 1 = 0 ∧
    value (accumulateFlowFrf d112 zoneTwo chMaskL (faceBud q) chLedger0)
        .inflow .constantHead 2 = 0 ∧
    value (accumulateFlowFrf d112 zoneTwo chMaskL (faceBud q) chLedger0)
        .inflow (.fromZone 2) 1 = -q ∧
    value (accumulateFlowFrf d112 zoneTwo chMaskL (faceBud q) chLedger0)
        .outflow (.toZone 1) 2 = -q := by
  have hch : chUpds (frfRawCHR2L d112 zoneTwo chMaskL (faceBud q)) =
      [⟨.inflow, .constantHead, 1, -q⟩] := by
    rw [show frfRawCHR2L d112 zoneTwo chMaskL (faceBud q) = [(1, 2, q)]
      from rfl]
    simp [chUpds, hq, abs_of_neg hq, not_le.mpr hq]
  have hnz : nzgtTuples (frfRawL2R d112 zoneTwo chMaskL (faceBud q)) =
      [(2, 1, -q)] := by
    rw [show frfRawL2R d112 zoneTwo chMaskL (faceBud q) = [(1, 2, q)]
      from rfl]
    simp [nzgtTuples, hq, abs_of_neg hq, not_le.mpr hq]
  have hacc : accumulateFlowFrf d112 zoneTwo chMaskL (faceBud q) chLedger0 =
      updateRecord
        (updateRecord (updateRecord chLedger0 .inflow .constantHead 1 (-q))
          .inflow (.fromZone 2) 1 (-q))
        .outflow (.toZone 1) 2 (-q) := by
    unfold accumulateFlowFrf
    rw [hch,
      show frfRawCHL2R d112 zoneTwo chMaskL (faceBud q) = [] from rfl,
      show frfRawR2L d112 zoneTwo chMaskL (faceBud q) = [] from rfl, hnz]
    rfl
  have cCH : countRows chLedger0 .inflow .constantHead = 1 := by decide
  have cF2 : countRows chLedger0 .inflow (.fromZone 2) = 1 := by decide
  have cT1 : countRows chLedger0 .outflow (.toZone 1) = 1 := by decide
  have hv0 : ∀ dd rr ww, value chLedger0 dd rr ww = 0 := fun dd rr ww =>
    value_initializeRecords true [] [1, 2] dd rr ww
  refine ⟨?_, ?_, ?_, ?_, ?_⟩ <;>
    simp [hacc, value_update, countRows_update, hv0, cCH, cF2, cT1]

theorem frf_twoCell_chL_pos (q : ℚ) (hq : 0 ≤ q) :
    value (accumulateFlowFrf d112 zoneTwo chMaskL (faceBud q) chLedger0)
        .outflow .constantHead 1 = q ∧
    value (accumulateFlowFrf d112 zoneTwo chMaskL (faceBud q) chLedger0)
        .inflow .constantHead 1 = 0 ∧
    value (accumulateFlowFrf d112 zoneTwo chMaskL (faceBud q) chLedger0)
        .outflow .constantHead 2 = 0 ∧
    value (accumulateFlowFrf d112 zoneTwo chMaskL (faceBud q) chLedger0)
        .inflow (.fromZone 1) 2 = q ∧
    value (accumulateFlowFrf d112 zoneTwo chMaskL (faceBud q) chLedger0)
        .outflow (.toZone 2) 1 = q := by
  have hch : chUpds (frfRawCHR2L d112 zoneTwo chMaskL (faceBud q)) =
      [⟨.outflow, .constantHead, 1, q⟩] := by
    rw [show frfRawCHR2L d112 zoneTwo chMaskL (faceBud q) = [(1, 2, q)]
      from rfl]
    simp [chUpds, not_lt.mpr hq, hq, abs_of_nonneg hq]
  have hnz : nzgtTuples (frfRawL2R d112 zoneTwo chMaskL (faceBud q)) =
      [(1, 2, q)] := by
    rw [show frfRawL2R d112 zoneTwo chMaskL (faceBud q) = [(1, 2, q)]
      from rfl]
    simp [nzgtTuples, not_lt.mpr hq, hq, abs_of_nonneg hq]
  have hacc : accumulateFlowFrf d112 zoneTwo chMaskL (faceBud q) chLedger0 =
      updateRecord
        (updateRecord (updateRecord chLedger0 .outflow .constantHead 1 q)
          .inflow (.fromZone 1) 2 q)
        .outflow (.toZone 2) 1 q := by
    unfold accumulateFlowFrf
    rw [hch,
      show frfRawCHL2R d112 zoneTwo chMaskL (faceBud q) = [] from rfl,
      show frfRawR2L d112 zoneTwo chMaskL (faceBud q) = [] from rfl, hnz]
    rfl
  have cCH : countRows chLedger0 .outflow .constantHead = 1 := by decide
  have cF1 : countRows chLedger0 .inflow (.fromZone 1) = 1 := by decide
  have cT2 : countRows chLedger0 .outflow (.toZone 2) = 1 := by decide
  have hv0 : ∀ dd rr ww, value chLedger0 dd rr ww = 0 := fun dd rr ww =>
    value_initializeRecords true [] [1, 2] dd rr ww
  refine ⟨?_, ?_, ?_, ?_, ?_⟩ <;>
    simp [hacc, value_update, countRows_update, hv0, cCH, cF1, cT2]

/-- A source with no records at all over a single-cell grid. -/
def trivSrc : CBCSource :=
  { dims := ⟨1, 1, 1⟩, hasCH := false, hasFRF := false, hasFFF := false,
    hasFLF := false, hasSwiCH := false, hasSwiFRF := false,
    hasSwiFFF := false, hasSwiFLF := false,
    chd := allZeroGrid, frf := allZeroGrid, fff := allZeroGrid,
    flf := allZeroGrid, swichd := allZeroGrid, swifrf := allZeroGrid,
    swifff := allZeroGrid, swiflf := allZeroGrid, ssst := [] }

/-- A single-cell zone array with zone 1. -/
def trivZ : ZArr := .three 1 1 1 fun _ _ _ => 1

/-- A source exposing SWIADDTOFRF but no SWIADDTOCH. -/
def swiOnlySrc : CBCSource := { trivSrc with hasSwiFRF := true }

/-- A source with no records over the 1x1x2 grid. -/
def noTermSrc112 : CBCSource := { trivSrc with dims := d112 }

/-- Zones [0, 1] on the 1x1x2 grid. -/
def zArr01 : ZArr := .three 1 1 2 fun _ _ c => if c = 0 then 0 else 1

/-- A RECHARGE record carrying an unknown imeth tag 99. -/
def rechargeTerm : SsstTerm := ⟨"RECHARGE", 99, .full allZeroGrid⟩

/-- A source exposing FLOW RIGHT FACE with flux q at the interior face of
the 1x1x2 grid followed by the bad RECHARGE record. -/
def frfRechargeSrc (q : ℚ) : CBCSource :=
  { dims := d112, hasCH := false, hasFRF := true, hasFFF := false,
    hasFLF := false, hasSwiCH := false, hasSwiFRF := false,
    hasSwiFFF := false, hasSwiFLF := false,
    chd := allZeroGrid, frf := faceBud q, fff := allZeroGrid,
    flf := allZeroGrid, swichd := allZeroGrid, swifrf := allZeroGrid,
    swifff := allZeroGrid, swiflf := allZeroGrid, ssst := [rechargeTerm] }

/-- The zones [1, 2] of the two-cell scenarios as a caller-supplied array. -/
def zArrTwo : ZArr := .three 1 1 2 zoneTwo

/-- A 2-D zone array containing the negative value -3. -/
def negZ : ZArr := .two 1 2 fun _ c => if c = 0 then -3 else 1

theorem frfRecharge_pipeline (q : ℚ) :
    getBudget (frfRechargeSrc q) true true zArrTwo =
      .error (.unrecognizedImeth "RECHARGE" 99,
        some (accumulateFlowFrf d112 zoneTwo noCH (faceBud q)
          (initializeRecords false ["RECHARGE"] [1, 2]))) := rfl

/-! ### Claim theorems -/

/-- C1, counterexample: on the 1x1x2 grid with zones [1, 2] and face flux
-5.0, the Ledger cells the claim requires to be 5.0 are in fact 0: the code
builds the negative-flux tuples as (to, from, |q|) but unpacks them as
(from_zone, to_zone, flux), so the magnitude lands in (in, FROM ZONE 2)
column 1 and (out, TO ZONE 1) column 2 instead. -/
theorem c1_counterexample :
    value (accumulateFlowFrf d112 zoneTwo noCH (faceBud (-5))
        (initializeRecords false [] [1, 2])) .inflow (.fromZone 1) 2 = 0 ∧
    value (accumulateFlowFrf d112 zoneTwo noCH (faceBud (-5))
        (initializeRecords false [] [1, 2])) .outflow (.toZone 2) 1 = 0 ∧
    value (accumulateFlowFrf d112 zoneTwo noCH (faceBud (-5))
        (initializeRecords false [] [1, 2])) .inflow (.fromZone 2) 1 = 5 ∧
    value (accumulateFlowFrf d112 zoneTwo noCH (faceBud (-5))
        (initializeRecords false [] [1, 2])) .outflow (.toZone 1) 2 = 5 := by
  have h := frf_twoCell_noCH_neg [] (-5) (by norm_num)
  refine ⟨h.2.2.1, h.2.2.2, ?_, ?_⟩
  · have h1 := h.1
    norm_num at h1
    exact h1
  · have h1 := h.2.1
    norm_num at h1
    exact h1

/-- C1 (amended): the effective attribution rule of the internal-flow scans
is index-based, not zone-id-based, and on every face it is the opposite of
the claim's orientation: writing (a, b) for the zones of the lesser-index
and the greater-index cell of an adjacent pair, a negative face value makes
the GREATER-INDEX cell's zone b the from-zone and a the to-zone (attribRule),
while a nonnegative value makes a the from-zone. Conjuncts: (1) over every
grid, the frf nzgt tuples of both scan directions are exactly
attribRule (izone left) (izone right) q over all column-adjacent pairs of
distinct zones, q the FLOW RIGHT FACE value at the left cell zeroed only
when both cells are constant head; (2) the same for fff over row-adjacent
pairs; (3) for flf only pairs whose DEEPER cell has the strictly greater
zone are attributed — by either scan — so upper-greater layer faces are
dropped (the orientation slip of the second flf scan); (4) each attributed
tuple (f, t, v) is consumed as the dual write adding v to (in, FROM ZONE f)
column t and (out, TO ZONE t) column f; (5)-(6) on the 1x1x2 grid with
zones [1, 2], any record names: q < 0 puts |q| in (in, FROM ZONE 2)[1] and
(out, TO ZONE 1)[2] leaving (in, FROM ZONE 1)[2] and (out, TO ZONE 2)[1]
zero, and q >= 0 does the reverse. -/
theorem c1_amended_sign_rule :
    (∀ (d : Dims) (izone : Zone3) (ich : Mask3) (bud : Grid3)
        (t : Int × Int × ℚ),
      t ∈ nzgtTuples (frfRawL2R d izone ich bud)
          ++ nzgtTuples (frfRawR2L d izone ich bud) ↔
      ∃ l r c, l < d.nlay ∧ r < d.nrow ∧ c + 1 < d.ncol ∧
        izone l r c ≠ izone l r (c + 1) ∧
        t = attribRule (izone l r c) (izone l r (c + 1))
          (if ich l r c && ich l r (c + 1) then 0 else bud l r c)) ∧
    (∀ (d : Dims) (izone : Zone3) (ich : Mask3) (bud : Grid3)
        (t : Int × Int × ℚ),
      t ∈ nzgtTuples (fffRawU2D d izone ich bud)
          ++ nzgtTuples (fffRawD2U d izone ich bud) ↔
      ∃ l r c, l < d.nlay ∧ r + 1 < d.nrow ∧ c < d.ncol ∧
        izone l r c ≠ izone l (r + 1) c ∧
        t = attribRule (izone l r c) (izone l (r + 1) c)
          (if ich l r c && ich l (r + 1) c then 0 else bud l r c)) ∧
    (∀ (d : Dims) (izone : Zone3) (ich : Mask3) (bud : Grid3)
        (t : Int × Int × ℚ),
      t ∈ nzgtTuples (flfRawT2B d izone ich bud)
          ++ nzgtTuples (flfRawB2T d izone ich bud) ↔
      ∃ l r c, l + 1 < d.nlay ∧ r < d.nrow ∧ c < d.ncol ∧
        izone l r c < izone (l + 1) r c ∧
        t = attribRule (izone l r c) (izone (l + 1) r c)
          (if ich l r c && ich (l + 1) r c then 0 else bud l r c)) ∧
    (∀ (L : Ledger) (f tz : Int) (v : ℚ) (ts : List (Int × Int × ℚ)),
      applyUpds L (transferUpds ((f, tz, v) :: ts)) =
        applyUpds (updateRecord (updateRecord L .inflow (.fromZone f) tz v)
          .outflow (.toZone tz) f v) (transferUpds ts)) ∧
    (∀ (ns : List String) (q : ℚ), q < 0 →
      value (accumulateFlowFrf d112 zoneTwo noCH (faceBud q)
          (initializeRecords false ns [1, 2])) .inflow (.fromZone 2) 1 = -q ∧
      value (accumulateFlowFrf d112 zoneTwo noCH (faceBud q)
          (initializeRecords false ns [1, 2])) .outflow (.toZone 1) 2 = -q ∧
      value (accumulateFlowFrf d112 zoneTwo noCH (faceBud q)
          (initializeRecords false ns [1, 2])) .inflow (.fromZone 1) 2 = 0 ∧
      value (accumulateFlowFrf d112 zoneTwo noCH (faceBud q)
          (initializeRecords false ns [1, 2])) .outflow (.toZone 2) 1 = 0) ∧
    (∀ (ns : List String) (q : ℚ), 0 ≤ q →
      value (accumulateFlowFrf d112 zoneTwo noCH (faceBud q)
          (initializeRecords false ns [1, 2])) .inflow (.fromZone 1) 2 = q ∧
      value (accumulateFlowFrf d112 zoneTwo noCH (faceBud q)
          (initializeRecords false ns [1, 2])) .outflow (.toZone 2) 1 = q ∧
      value (accumulateFlowFrf d112 zoneTwo noCH (faceBud q)
          (initializeRecords false ns [1, 2])) .inflow (.fromZone 2) 1 = 0 ∧
      value (accumulateFlowFrf d112 zoneTwo noCH (faceBud q)
          (initializeRecords false ns [1, 2])) .outflow (.toZone 1) 2 = 0) :=
  ⟨frf_transfer_mem, fff_transfer_mem, flf_transfer_mem,
    fun _ _ _ _ _ => rfl,
    frf_twoCell_noCH_neg, frf_twoCell_noCH_pos⟩

/-- C1, witness: the amended rule evaluated at flux -5 on the two-cell
grid. -/
theorem c1_witness :
    value (accumulateFlowFrf d112 zoneTwo noCH (faceBud (-5))
        (initializeRecords false [] [1, 2])) .inflow (.fromZone 2) 1 = 5 ∧
    value (accumulateFlowFrf d112 zoneTwo noCH (faceBud (-5))
        (initializeRecords false [] [1, 2])) .outflow (.toZone 1) 2 = 5 := by
  have h := c1_amended_sign_rule.2.2.2.2.1 [] (-5) (by norm_num)
  constructor
  · have h1 := h.1
    norm_num at h1
    exact h1
  · have h1 := h.2.1
    norm_num at h1
    exact h1

/-- C2: pairwise symmetry. For every successful get_budget call and every
pair of nonzero zones (A, B), the finished record array holds the same value
at (in, FROM ZONE A) column B and at (out, TO ZONE B) column A, all axes and
scan directions combined. -/
theorem c2_pairwise_symmetry (src : CBCSource) (hT tE : Bool) (z : ZArr)
    (L : Ledger) (h : getBudget src hT tE z = .ok L) (A B : Int)
    (hA : A ≠ 0) (hB : B ≠ 0) :
    value L .inflow (.fromZone A) B = value L .outflow (.toZone B) A :=
  getBudget_ok_sym src hT tE z L h A B hA hB

/-- C2, witness: the symmetry theorem applied to a concrete successful
call. -/
theorem c2_witness :
    getBudget trivSrc true true trivZ = .ok (initializeRecords false [] [1]) ∧
    value (initializeRecords false [] [1]) .inflow (.fromZone 1) 1 =
      value (initializeRecords false [] [1]) .outflow (.toZone 1) 1 :=
  ⟨rfl, c2_pairwise_symmetry trivSrc true true trivZ _ rfl 1 1
    (by norm_num) (by norm_num)⟩

/-- C3, counterexample: with the right cell constant head, zones [1, 2] and
face flux -5.0, the magnitude is written into the CONSTANT HEAD row and is
additionally accumulated into the pairwise FROM ZONE/TO ZONE rows,
contradicting the claim that the pairwise rows are not also written. -/
theorem c3_counterexample :
    value (accumulateFlowFrf d112 zoneTwo chMaskR (faceBud (-5)) chLedger0)
        .inflow .constantHead 1 = 5 ∧
    value (accumulateFlowFrf d112 zoneTwo chMaskR (faceBud (-5)) chLedger0)
        .inflow (.fromZone 2) 1 = 5 ∧
    value (accumulateFlowFrf d112 zoneTwo chMaskR (faceBud (-5)) chLedger0)
        .outflow (.toZone 1) 2 = 5 := by
  have h := frf_twoCell_chR_neg (-5) (by norm_num)
  refine ⟨?_, ?_, ?_⟩
  · have h1 := h.1
    norm_num at h1
    exact h1
  · have h1 := h.2.2.2.1
    norm_num at h1
    exact h1
  · have h1 := h.2.2.2.2
    norm_num at h1
    exact h1

/-- C3 (amended): the constant-head writes of the internal-flow scans are
made for EVERY adjacent pair with a constant-head cell on either side,
regardless of whether the zones differ, and the column written is always
the LESSER-INDEX cell's zone (chRule): direction in exactly when the face
value is negative, out otherwise, magnitude |q|, q zeroed only when both
cells are constant head. Conjuncts: (1) over every grid, the union of the
two frf constant-head update lists is exactly chRule (izone left) q over
all column-adjacent pairs with at least one constant-head cell; (2)-(3)
the same for fff over rows and flf over layers; (4)-(5) a chRule update is
consumed as adding |q| to row (in, CONSTANT HEAD) when q < 0 and to
(out, CONSTANT HEAD) otherwise, at the lesser-index cell's zone column;
(6)-(7) double counting for frf and fff: a cross-zone pair that is not
constant head on both sides ALSO contributes attribRule of its unzeroed
flux to the pairwise nzgt tuples; (8) the same for flf when the deeper
cell's zone is the strictly greater one; (9) on the 1x1x2 grid with zones
[1, 2] and either cell constant head, flux q lands with magnitude |q| both
in the CONSTANT HEAD row at column 1 (in iff q < 0) and in the pairwise
rows, the latter oriented by the index-based rule. -/
theorem c3_amended_constant_head :
    (∀ (d : Dims) (izone : Zone3) (ich : Mask3) (bud : Grid3) (u : Upd),
      (u ∈ chUpds (frfRawCHL2R d izone ich bud) ∨
        u ∈ chUpds (frfRawCHR2L d izone ich bud)) ↔
      ∃ l r c, l < d.nlay ∧ r < d.nrow ∧ c + 1 < d.ncol ∧
        (ich l r c = true ∨ ich l r (c + 1) = true) ∧
        u = chRule (izone l r c)
          (if ich l r c && ich l r (c + 1) then 0 else bud l r c)) ∧
    (∀ (d : Dims) (izone : Zone3) (ich : Mask3) (bud : Grid3) (u : Upd),
      (u ∈ chUpds (fffRawCHU2D d izone ich bud) ∨
        u ∈ chUpds (fffRawCHD2U d izone ich bud)) ↔
      ∃ l r c, l < d.nlay ∧ r + 1 < d.nrow ∧ c < d.ncol ∧
        (ich l r c = true ∨ ich l (r + 1) c = true) ∧
        u = chRule (izone l r c)
          (if ich l r c && ich l (r + 1) c then 0 else bud l r c)) ∧
    (∀ (d : Dims) (izone : Zone3) (ich : Mask3) (bud : Grid3) (u : Upd),
      (u ∈ chUpds (flfRawCHT2B d izone ich bud) ∨
        u ∈ chUpds (flfRawCHB2T d izone ich bud)) ↔
      ∃ l r c, l + 1 < d.nlay ∧ r < d.nrow ∧ c < d.ncol ∧
        (ich l r c = true ∨ ich (l + 1) r c = true) ∧
        u = chRule (izone l r c)
          (if ich l r c && ich (l + 1) r c then 0 else bud l r c)) ∧
    (∀ (L : Ledger) (a : Int) (q : ℚ), q < 0 →
      applyUpds L [chRule a q] =
        updateRecord L .inflow .constantHead a |q|) ∧
    (∀ (L : Ledger) (a : Int) (q : ℚ), 0 ≤ q →
      applyUpds L [chRule a q] =
        updateRecord L .outflow .constantHead a |q|) ∧
    (∀ (d : Dims) (izone : Zone3) (ich : Mask3) (bud : Grid3) (l r c : ℕ),
      l < d.nlay → r < d.nrow → c + 1 < d.ncol →
      ¬(ich l r c = true ∧ ich l r (c + 1) = true) →
      izone l r c ≠ izone l r (c + 1) →
      attribRule (izone l r c) (izone l r (c + 1)) (bud l r c) ∈
        nzgtTuples (frfRawL2R d izone ich bud)
          ++ nzgtTuples (frfRawR2L d izone ich bud)) ∧
    (∀ (d : Dims) (izone : Zone3) (ich : Mask3) (bud : Grid3) (l r c : ℕ),
      l < d.nlay → r + 1 < d.nrow → c < d.ncol →
      ¬(ich l r c = true ∧ ich l (r + 1) c = true) →
      izone l r c ≠ izone l (r + 1) c →
      attribRule (izone l r c) (izone l (r + 1) c) (bud l r c) ∈
        nzgtTuples (fffRawU2D d izone ich bud)
          ++ nzgtTuples (fffRawD2U d izone ich bud)) ∧
    (∀ (d : Dims) (izone : Zone3) (ich : Mask3) (bud : Grid3) (l r c : ℕ),
      l + 1 < d.nlay → r < d.nrow → c < d.ncol →
      ¬(ich l r c = true ∧ ich (l + 1) r c = true) →
      izone l r c < izone (l + 1) r c →
      attribRule (izone l r c) (izone (l + 1) r c) (bud l r c) ∈
        nzgtTuples (flfRawT2B d izone ich bud)
          ++ nzgtTuples (flfRawB2T d izone ich bud)) ∧
    (∀ (m : Mask3), m = chMaskL ∨ m = chMaskR → ∀ (q : ℚ),
      (q < 0 →
        value (accumulateFlowFrf d112 zoneTwo m (faceBud q) chLedger0)
            .inflow .constantHead 1 = -q ∧
        value (accumulateFlowFrf d112 zoneTwo m (faceBud q) chLedger0)
            .outflow .constantHead 1 = 0 ∧
        value (accumulateFlowFrf d112 zoneTwo m (faceBud q) chLedger0)
            .inflow .constantHead 2 = 0 ∧
        value (accumulateFlowFrf d112 zoneTwo m (faceBud q) chLedger0)
            .inflow (.fromZone 2) 1 = -q ∧
        value (accumulateFlowFrf d112 zoneTwo m (faceBud q) chLedger0)
            .outflow (.toZone 1) 2 = -q) ∧
      (0 ≤ q →
        value (accumulateFlowFrf d112 zoneTwo m (faceBud q) chLedger0)
            .outflow .constantHead 1 = q ∧
        value (accumulateFlowFrf d112 zoneTwo m (faceBud q) chLedger0)
            .inflow .constantHead 1 = 0 ∧
        value (accumulateFlowFrf d112 zoneTwo m (faceBud q) chLedger0)
            .outflow .constantHead 2 = 0 ∧
        value (accumulateFlowFrf d112 zoneTwo m (faceBud q) chLedger0)
            .inflow (.fromZone 1) 2 = q ∧
        value (accumulateFlowFrf d112 zoneTwo m (faceBud q) chLedger0)
            .outflow (.toZone 2) 1 = q)) := by
  refine ⟨frf_ch_mem, fff_ch_mem, flf_ch_mem, ?_, ?_, ?_, ?_, ?_, ?_⟩
  · intro L a q hq
    simp [chRule, hq, applyUpds]
  · intro L a q hq
    simp [chRule, not_lt.mpr hq, applyUpds]
  · intro d izone ich bud l r c hl hr hc hich hne
    have hz : (if ich l r c && ich l r (c + 1) then (0 : ℚ)
        else bud l r c) = bud l r c := by
      rw [if_neg]
      simpa [Bool.and_eq_true] using hich
    exact (frf_transfer_mem d izone ich bud _).2
      ⟨l, r, c, hl, hr, hc, hne, by rw [hz]⟩
  · intro d izone ich bud l r c hl hr hc hich hne
    have hz : (if ich l r c && ich l (r + 1) c then (0 : ℚ)
        else bud l r c) = bud l r c := by
      rw [if_neg]
      simpa [Bool.and_eq_true] using hich
    exact (fff_transfer_mem d izone ich bud _).2
      ⟨l, r, c, hl, hr, hc, hne, by rw [hz]⟩
  · intro d izone ich bud l r c hl hr hc hich hlt
    have hz : (if ich l r c && ich (l + 1) r c then (0 : ℚ)
        else bud l r c) = bud l r c := by
      rw [if_neg]
      simpa [Bool.and_eq_true] using hich
    exact (flf_transfer_mem d izone ich bud _).2
      ⟨l, r, c, hl, hr, hc, hlt, by rw [hz]⟩
  · rintro m (rfl | rfl) q
    · exact ⟨frf_twoCell_chL_neg q, frf_twoCell_chL_pos q⟩
    · exact ⟨frf_twoCell_chR_neg q, frf_twoCell_chR_pos q⟩

/-- C3, witness: the amended constant-head rule at flux -5 with the right
cell constant head. -/
theorem c3_witness :
    value (accumulateFlowFrf d112 zoneTwo chMaskR (faceBud (-5)) chLedger0)
        .inflow .constantHead 1 = 5 := by
  have h := (c3_amended_constant_head.2.2.2.2.2.2.2.2 chMaskR
    (Or.inr rfl) (-5)).1 (by norm_num)
  have h1 := h.1
  norm_num at h1
  exact h1

/-- C4, counterexample: a source whose RECHARGE record has the unknown imeth
99 raises Unrecognized imeth only after the FLOW RIGHT FACE term has been
accumulated: the engine state at the raise already holds the transfer
magnitude 5 at (in, FROM ZONE 2) column 1, so the failed call does not leave
an untouched Ledger. -/
theorem c4_counterexample :
    errCode (getBudget (frfRechargeSrc (-5)) true true zArrTwo) =
      some (.unrecognizedImeth "RECHARGE" 99) ∧
    errValue (getBudget (frfRechargeSrc (-5)) true true zArrTwo)
      .inflow (.fromZone 2) 1 = 5 := by
  constructor
  · rw [frfRecharge_pipeline]
    rfl
  · rw [frfRecharge_pipeline]
    have h := (frf_twoCell_noCH_neg ["RECHARGE"] (-5) (by norm_num)).1
    norm_num at h
    exact h

/-- C4 (amended): a Budget is returned only on full success — every term of
a successful call has a recognized imeth — but the Unrecognized imeth error
is raised inside the per-term accumulation loop, after the internal-flow
terms have been accumulated, and the partially accumulated record array is
the engine state at the raise (for flux q below zero it already holds |q| at
(in, FROM ZONE 2) column 1). -/
theorem c4_amended_error_timing :
    (∀ (src : CBCSource) (hT tE : Bool) (z : ZArr) (L : Ledger),
      getBudget src hT tE z = .ok L →
      ∀ t ∈ src.ssst, t.imeth = 0 ∨ t.imeth = 1 ∨ t.imeth = 2 ∨
        t.imeth = 3 ∨ t.imeth = 4 ∨ t.imeth = 5) ∧
    (∀ q : ℚ, q < 0 →
      errCode (getBudget (frfRechargeSrc q) true true zArrTwo) =
        some (.unrecognizedImeth "RECHARGE" 99) ∧
      errValue (getBudget (frfRechargeSrc q) true true zArrTwo)
        .inflow (.fromZone 2) 1 = -q) := by
  constructor
  · intro src hT tE z L h
    obtain ⟨izone, L1, hval, hri, hloop⟩ := getBudget_ok_decomp src hT tE z L h
    exact ssstLoop_ok_imeth src.dims izone _ src.ssst L1 L hloop
  · intro q hq
    constructor
    · rw [frfRecharge_pipeline]
      rfl
    · rw [frfRecharge_pipeline]
      exact (frf_twoCell_noCH_neg ["RECHARGE"] q hq).1

/-- C4, witness: the amended statement at flux -5. -/
theorem c4_witness :
    errValue (getBudget (frfRechargeSrc (-5)) true true zArrTwo)
      .inflow (.fromZone 2) 1 = 5 := by
  have h := (c4_amended_error_timing.2 (-5) (by norm_num)).2
  norm_num at h
  exact h

/-- C5: the claim is right and the code is wrong. On a source exposing
SWIADDTOFRF without SWIADDTOCH, get_budget hits the unassigned local
variable swiich inside the SWIADDTOFRF branch and raises a NameError instead
of skipping the incomplete process group (the primary group pre-initializes
ich to zeros; the SWI group has no such default). -/
theorem c5_swiich_name_error :
    getBudget swiOnlySrc true true trivZ =
      .error (.nameErrorSwiich, some (initializeRecords false [] [1])) := rfl

/-- C6, counterexample: a successful get_budget call on the 1x1x2 grid with
zones [0, 1] returns a record array containing a FROM ZONE 0 row and a
TO ZONE 0 row: _initialize_records loops over all of lstzon, including the
zero zone, when creating the pairwise rows (only the columns exclude zone
0). -/
theorem c6_counterexample :
    isOk (getBudget noTermSrc112 true true zArr01) = true ∧
    countRows (okLedger (getBudget noTermSrc112 true true zArr01))
      .inflow (.fromZone 0) = 1 ∧
    countRows (okLedger (getBudget noTermSrc112 true true zArr01))
      .outflow (.toZone 0) = 1 ∧
    (okLedger (getBudget noTermSrc112 true true zArr01)).cols = [1] := by
  refine ⟨rfl, by decide, by decide, rfl⟩

/-- C6 (amended): _initialize_records creates exactly one FROM ZONE z in row
and one TO ZONE z out row for every occurrence of z in lstzon — all distinct
zone ids of the grid, zone 0 included — while the zone columns of the dtype
are exactly the nonzero entries; in a get_budget call lstzon holds each
present zone id exactly once. -/
theorem c6_amended_row_creation :
    (∀ (hc : Bool) (ns : List String) (lst : List Int) (w : Int),
      countRows (initializeRecords hc ns lst) .inflow (.fromZone w) =
        lst.count w ∧
      countRows (initializeRecords hc ns lst) .outflow (.toZone w) =
        lst.count w ∧
      (initializeRecords hc ns lst).cols =
        lst.filter fun v => decide (v ≠ 0)) ∧
    (∀ (d : Dims) (izone : Zone3) (w : Int), w ∈ zoneList d izone →
      (zoneList d izone).count w = 1) := by
  constructor
  · intro hc ns lst w
    exact ⟨countRows_init_fromZone hc ns lst w,
      countRows_init_toZone hc ns lst w, rfl⟩
  · intro d izone w hw
    exact List.count_eq_one_of_mem (List.nodup_dedup _) hw

/-- C6, witness: the amended statement at the two-cell grid. -/
theorem c6_witness :
    countRows (initializeRecords false [] [0, 1]) .inflow (.fromZone 0) =
      ([0, 1] : List Int).count 0 ∧
    (zoneList d112 zoneTwo).count 1 = 1 :=
  ⟨(c6_amended_row_creation.1 false [] [0, 1] 0).1,
    c6_amended_row_creation.2 d112 zoneTwo 1 (by decide)⟩

/-- C7: zone validation. Negative values are collected (distinct values of
the array) and reported through the InvalidZoneId error before any shape
handling; a 2-D array on a single-layer model of matching row and column
counts is broadcast into a 1 x rows x cols volume; a 2-D array on a
multi-layer model fails with ShapeMismatch; a 3-D array must match the model
shape exactly or the call fails with ShapeMismatch; and get_budget surfaces
the InvalidZoneId error of a negative-valued grid. -/
theorem c7_zone_validation :
    (∀ (z : ZArr) (v : Int), v ∈ negativeZones z ↔ v < 0 ∧ v ∈ zValues z) ∧
    (∀ (d : Dims) (z : ZArr), negativeZones z ≠ [] →
      validateZones d z = .error (.invalidZoneId (negativeZones z))) ∧
    (∀ (d : Dims) (nr nc : Nat) (f : Nat → Nat → Int),
      negativeZones (.two nr nc f) = [] → d.nlay = 1 → nr = d.nrow →
      nc = d.ncol →
      validateZones d (.two nr nc f) =
        .ok fun l r c => if l = 0 then f r c else 0) ∧
    (∀ (d : Dims) (nr nc : Nat) (f : Nat → Nat → Int),
      negativeZones (.two nr nc f) = [] → d.nlay ≠ 1 →
      validateZones d (.two nr nc f) = .error .shapeMismatch) ∧
    (∀ (d : Dims) (nl nr nc : Nat) (f : Zone3),
      negativeZones (.three nl nr nc f) = [] →
      ¬(nl = d.nlay ∧ nr = d.nrow ∧ nc = d.ncol) →
      validateZones d (.three nl nr nc f) = .error .shapeMismatch) ∧
    (∀ (src : CBCSource) (z : ZArr), negativeZones z ≠ [] →
      getBudget src true true z =
        .error (.invalidZoneId (negativeZones z), none)) := by
  refine ⟨?_, ?_, ?_, ?_, ?_, ?_⟩
  · intro z v
    simp [negativeZones, List.mem_filter, List.mem_dedup, and_comm]
  · intro d z h
    unfold validateZones
    rw [if_pos h]
  · intro d nr nc f h h1 h2 h3
    subst h2; subst h3
    simp [validateZones, h, h1]
  · intro d nr nc f h h1
    simp [validateZones, h, h1]
  · intro d nl nr nc f h h1
    simp [validateZones, h, h1]
  · intro src z h
    unfold getBudget
    have hv : validateZones src.dims z =
        .error (.invalidZoneId (negativeZones z)) := by
      unfold validateZones
      rw [if_pos h]
    rw [hv]
    rfl

/-- C7, witness: a 2-D zone array holding -3 fails with InvalidZoneId
reporting the offending value. -/
theorem c7_witness :
    negativeZones negZ ≠ [] ∧
    validateZones d112 negZ = .error (.invalidZoneId (negativeZones negZ)) :=
  ⟨by decide, c7_zone_validation.2.1 d112 negZ (by decide)⟩

/-- The 1x1x10 model shape of the sparse-list example. -/
def d1110 : Dims := ⟨1, 1, 10⟩

/-- The sparse-list example entries: (node 5, +3), (node 5, +2),
(node 9, -4). -/
def exEntries : List (Nat × ℚ) := [(5, 3), (5, 2), (9, -4)]

/-- C8: sparse-list normalization. The scatter of an imeth 2/5 list into a
flat volume sums duplicate node entries (positive values into the budin
half, strictly negative values into the budout half, each at its 1-based
node index minus one), the imeth dispatch returns exactly these two arrays,
and on the 1x1x10 example the results are budin[0,0,4] = 5, budout[0,0,8] =
-4, every other cell 0. -/
theorem c8_sparse_list :
    (∀ (entries : List (Nat × ℚ)) (pos : Bool) (i : Nat),
      listScatter entries pos i =
        ((entries.filter fun e =>
            decide (i = e.1 - 1) &&
              (if pos then decide (0 < e.2) else decide (e.2 < 0))).map
          Prod.snd).sum) ∧
    normalizeSSST d1110 "WELLS" 2 (.list exEntries) =
      .ok (fun l r c => listScatter exEntries true (flatIdx d1110 l r c),
        fun l r c => listScatter exEntries false (flatIdx d1110 l r c)) ∧
    listScatter exEntries true (flatIdx d1110 0 0 4) = 5 ∧
    listScatter exEntries false (flatIdx d1110 0 0 8) = -4 ∧
    (∀ c < 10, c ≠ 4 → listScatter exEntries true (flatIdx d1110 0 0 c) = 0) ∧
    (∀ c < 10, c ≠ 8 →
      listScatter exEntries false (flatIdx d1110 0 0 c) = 0) := by
  refine ⟨listScatter_eq, rfl, ?_, ?_, ?_, ?_⟩
  · rw [listScatter_eq]
    norm_num [exEntries, flatIdx, d1110, List.filter_cons]
  · rw [listScatter_eq]
    norm_num [exEntries, flatIdx, d1110, List.filter_cons]
  · intro c hc hne
    rw [listScatter_eq]
    interval_cases c <;>
      first
        | exact absurd rfl hne
        | norm_num [exEntries, flatIdx, d1110, List.filter_cons]
  · intro c hc hne
    rw [listScatter_eq]
    interval_cases c <;>
      first
        | exact absurd rfl hne
        | norm_num [exEntries, flatIdx, d1110, List.filter_cons]

/-- C8, witness: the all-other-cells-zero clauses evaluated at column 0. -/
theorem c8_witness :
    listScatter exEntries true (flatIdx d1110 0 0 0) = 0 ∧
    listScatter exEntries false (flatIdx d1110 0 0 0) = 0 :=
  ⟨c8_sparse_list.2.2.2.2.1 0 (by norm_num) (by norm_num),
    c8_sparse_list.2.2.2.2.2 0 (by norm_num) (by norm_num)⟩

/-- C9: percent error. For every Ledger returned by a successful get_budget
call and every zone column, get_percent_error equals
100 * (inflow - outflow) / ((inflow + outflow) / 2), and it is exactly 0
whenever inflow + outflow is 0 (every cell of such a Ledger is nonnegative,
so both totals vanish and np.nan_to_num maps the resulting 0/0 to exactly
0). -/
theorem c9_percent_error (src : CBCSource) (hT tE : Bool) (z : ZArr)
    (L : Ledger) (h : getBudget src hT tE z = .ok L) (w : Int) :
    getPercentError L w =
      100 * (totalInflow L w - totalOutflow L w) /
        ((totalInflow L w + totalOutflow L w) / 2) ∧
    (totalInflow L w + totalOutflow L w = 0 → getPercentError L w = 0) := by
  refine ⟨rfl, fun h0 => ?_⟩
  have hnn := getBudget_ok_nonneg src hT tE z L h
  have hi := totalInflow_nonneg L hnn w
  have ho := totalOutflow_nonneg L hnn w
  have hi0 : totalInflow L w = 0 := by linarith
  have ho0 : totalOutflow L w = 0 := by linarith
  unfold getPercentError
  rw [hi0, ho0]
  norm_num

/-- C9, witness: a concrete successful call with zero totals gives percent
error exactly 0. -/
theorem c9_witness :
    getPercentError (initializeRecords false [] [(1 : Int)]) 1 = 0 := by
  apply (c9_percent_error trivSrc true true trivZ
    (initializeRecords false [] [(1 : Int)]) rfl 1).2
  simp [totalInflow, totalOutflow, initializeRecords, emptyRow]

/-- C10: null-zone exclusion. Writing to column ZONE 0 is a silent no-op of
_update_record; the dtype of a fresh record array has no ZONE 0 column; and
the column set of every Ledger returned by a successful get_budget call
excludes zone 0. -/
theorem c10_null_zone :
    (∀ (L : Ledger) (d : FlowDir) (r : RecName) (f : ℚ),
      updateRecord L d r 0 f = L) ∧
    (∀ (hc : Bool) (ns : List String) (lst : List Int),
      (0 : Int) ∉ (initializeRecords hc ns lst).cols) ∧
    (∀ (src : CBCSource) (hT tE : Bool) (z : ZArr) (L : Ledger),
      getBudget src hT tE z = .ok L → (0 : Int) ∉ L.cols) := by
  refine ⟨updateRecord_zero, ?_, ?_⟩
  · intro hc ns lst
    simp [initializeRecords, List.mem_filter]
  · intro src hT tE z L h
    obtain ⟨izone, hval, hcols⟩ := getBudget_ok_cols src hT tE z L h
    rw [hcols]
    simp [List.mem_filter]

/-- C10, witness: the pipeline clause applied to a concrete successful
call. -/
theorem c10_witness :
    (0 : Int) ∉ (okLedger (getBudget noTermSrc112 true true zArr01)).cols := by
  rw [show okLedger (getBudget noTermSrc112 true true zArr01) =
    initializeRecords false [] [0, 1] from rfl]
  exact c10_null_zone.2.2 noTermSrc112 true true zArr01
    (initializeRecords false [] [0, 1]) rfl

end ZonBud
